import Mathlib

/-!
The RDT session of `FTSensor` in the ati_sensor driver (src/ft_sensor.cpp)

A shallow embedding of the driver logic of `src/ft_sensor.cpp`.  The sensor object
is a record of its member variables; every member function is a function from the
object and the network to a result, the new object and the new network.

The transport primitives (`rt_dev_socket`, `rt_dev_connect`, `rt_dev_send`,
`rt_dev_recv`, `rt_dev_close`) and `xmlReadFile` are external: their answers are
read from `Net`, indexed by the number of external calls made so far, and every
call is appended to `Net.calls`; whether `gethostbyname` finds an address is read
from `Net.resolves`.  Theorems quantify over every `Net`.  A result of type `Option`
is `none` where the source throws or crashes, or where a text conversion is not
modelled.

Machine integers are `Nat`/`Int` with explicit reduction modulo `2^16`, `2^32`
and `2^64`; bytes are `Nat` below 256; `size_t` is 64 bits wide.
-/

namespace ati

/-! ## Declarations of `ati_sensor/ft_sensor.h` -/

/-- Constants declared in `ati_sensor/ft_sensor.h`, a header that is not among the
sources: the magic header, the command codes of `command_s`, the default sample
counts of the `start*Streaming` overloads, `ati::default_ip`,
`ati::current_calibration`, and the
compile-time backend switch `HAVE_RTNET`.  They are parameters of the model. -/
structure Header where
  command_header : Nat
  STOP : Nat
  REALTIME : Nat
  BUFFERED : Nat
  MULTIUNIT : Nat
  RESET_THRESHOLD_LATCH : Nat
  SET_SOFWARE_BIAS : Nat
  DEFAULT_PORT : Nat
  defaultRealTimeSamples : Nat
  defaultBufferedSamples : Nat
  defaultMultiUnitSamples : Nat
  default_ip : List Char
  current_calibration : Int
  HAVE_RTNET : Bool

/-- Modelled from the spec: `RDT_RECORD_SIZE`, a macro of the absent header
`ft_sensor.h`; the spec gives the Response wire size as 36 bytes. -/
def RDT_RECORD_SIZE : Int := 36

/-- Modelled from the spec: `sizeof(request_)`, whose declaration is in the absent
header; the spec gives the Command wire size as 8 bytes. -/
def sizeofRequest : Nat := 8

/-- Modelled from the spec: `sizeof(response_)`, whose declaration is in the absent
header; the spec gives the Response wire size as 36 bytes. -/
def sizeofResponse : Nat := 36

/-! ## Machine integers and byte order -/

/-- Conversion of a signed value to `uint32_t`. -/
def toUInt32 (v : Int) : Nat := (v % 4294967296).toNat

/-- Conversion of an unsigned 32-bit value to `int32_t` (two's complement). -/
def toInt32 (x : Nat) : Int :=
  if x % 4294967296 < 2147483648 then (x % 4294967296 : Nat)
  else (x % 4294967296 : Nat) - 4294967296

/-- Conversion of a signed value to `size_t` (64 bits). -/
def toSizeT (v : Int) : Nat := (v % 18446744073709551616).toNat

/-- Byte swap of a 16-bit value. -/
def bswap16 (x : Nat) : Nat := (x % 256) * 256 + (x / 256) % 256

/-- Byte swap of a 32-bit value. -/
def bswap32 (x : Nat) : Nat :=
  (x % 256) * 16777216 + (x / 256 % 256) * 65536 + (x / 65536 % 256) * 256 + (x / 16777216) % 256

/-- The libc `htons`: the identity on a big-endian host, a byte swap on a
little-endian one. -/
def htons (littleEndian : Bool) (x : Nat) : Nat :=
  if littleEndian then bswap16 (x % 65536) else x % 65536

/-- The libc `htonl`. -/
def htonl (littleEndian : Bool) (x : Nat) : Nat :=
  if littleEndian then bswap32 (x % 4294967296) else x % 4294967296

/-- The libc `ntohl`. -/
def ntohl (littleEndian : Bool) (x : Nat) : Nat := htonl littleEndian x

/-- The bytes a host stores for a `uint16_t`, lowest address first. -/
def store16 (littleEndian : Bool) (x : Nat) : List Nat :=
  if littleEndian then [x % 256, x / 256 % 256] else [x / 256 % 256, x % 256]

/-- The bytes a host stores for a `uint32_t`, lowest address first. -/
def store32 (littleEndian : Bool) (x : Nat) : List Nat :=
  if littleEndian then [x % 256, x / 256 % 256, x / 65536 % 256, x / 16777216 % 256]
  else [x / 16777216 % 256, x / 65536 % 256, x / 256 % 256, x % 256]

/-- Overwrite `bytes.length` bytes of a buffer from offset `off` on.  A buffer
shorter than `off` is first extended with zero bytes. -/
def writeAt (buf : List Nat) (off : Nat) (bytes : List Nat) : List Nat :=
  (buf.take off ++ List.replicate (off - buf.length) 0) ++ bytes ++ buf.drop (off + bytes.length)

/-- The byte of a buffer at an offset. -/
def byteAt (buf : List Nat) (off : Nat) : Nat := buf.getD off 0 % 256

/-- The value a host loads from four bytes at `off` as a `uint32_t`. -/
def load32 (littleEndian : Bool) (buf : List Nat) (off : Nat) : Nat :=
  if littleEndian then
    byteAt buf off + byteAt buf (off + 1) * 256 + byteAt buf (off + 2) * 65536
      + byteAt buf (off + 3) * 16777216
  else
    byteAt buf off * 16777216 + byteAt buf (off + 1) * 65536 + byteAt buf (off + 2) * 256
      + byteAt buf (off + 3)

/-- The value a host loads from four bytes at `off` as an `int32_t`. -/
def loadInt32 (littleEndian : Bool) (buf : List Nat) (off : Nat) : Int :=
  toInt32 (load32 littleEndian buf off)

/-! ## The external transport -/

/-- A document node of libxml2 in its first-child / next-sibling form; `null` is
the `NULL` pointer. -/
inductive XmlNode where
  | null : XmlNode
  | node (isElement : Bool) (name : List Char) (content : Option (List Char))
      (children : XmlNode) (next : XmlNode) : XmlNode
  deriving DecidableEq, Repr

/-- What a `send` did: it failed (the return value is the negative `int`
`-(code + 1)`), or it accepted some bytes. -/
inductive SendOutcome where
  | failed (code : Fin 2147483648)
  | wrote (n : Nat)
  deriving DecidableEq, Repr

/-- What a `recv` did: it failed or timed out (the return value is the negative
`int` `-(code + 1)`), or it delivered some bytes (none at the end of a stream). -/
inductive RecvOutcome where
  | failed (code : Fin 2147483648)
  | got (data : List Nat)
  deriving DecidableEq, Repr

/-- Whether a send accepted at least `len` bytes, so that a send of `len` bytes
returns `len`. -/
def SendOutcome.wroteAll (o : SendOutcome) (len : Nat) : Bool :=
  match o with
  | SendOutcome.failed _ => false
  | SendOutcome.wrote n => decide (len ≤ n)

/-- Whether a receive delivered at least `len` bytes, so that a receive of up to `len`
bytes returns `len`. -/
def RecvOutcome.gotAll (o : RecvOutcome) (len : Nat) : Bool :=
  match o with
  | RecvOutcome.failed _ => false
  | RecvOutcome.got data => decide (len ≤ data.length)

/-- An external call made by the driver. -/
inductive Call where
  | socket (protocolUDP : Bool)
  | connect (handle : Int) (ip : List Char) (port : Nat)
  | send (handle : Int) (bytes : List Nat)
  | recv (handle : Int) (maxLen : Nat)
  | close (handle : Int)
  | xmlReadFile (url : List Char)
  deriving DecidableEq, Repr

/-- Whether a call moves data on a socket: a send or a receive. -/
def Call.isTransfer : Call → Bool
  | Call.send _ _ => true
  | Call.recv _ _ => true
  | _ => false

/-- The environment: host byte order, the answers of the external calls (indexed
by the number of external calls made before), whether `gethostbyname` finds an
address for a name, and the calls made so far, oldest first. -/
structure Net where
  hostLittleEndian : Bool
  sendOut : Nat → SendOutcome
  recvOut : Nat → RecvOutcome
  socketOut : Nat → Int
  closeOut : Nat → Int
  xmlOut : Nat → Option XmlNode
  resolves : List Char → Bool
  calls : List Call

namespace Net

/-- Record one external call. -/
def log (w : Net) (c : Call) : Net := { w with calls := w.calls ++ [c] }

/-- Record several external calls. -/
def logAll (w : Net) (cs : List Call) : Net := { w with calls := w.calls ++ cs }

/-- The return value of `rt_dev_send(handle, bytes, bytes.length, 0)`. -/
def send (w : Net) (handle : Int) (bytes : List Nat) : Int × Net :=
  let ret : Int :=
    match w.sendOut w.calls.length with
    | SendOutcome.failed code => -((code.val : Int) + 1)
    | SendOutcome.wrote n => ((min n bytes.length : Nat) : Int)
  (ret, w.log (Call.send handle bytes))

/-- The return value of `rt_dev_recv(handle, buf, maxLen, 0)` and the bytes it
wrote at the start of `buf`. -/
def recv (w : Net) (handle : Int) (maxLen : Nat) : Int × List Nat × Net :=
  match w.recvOut w.calls.length with
  | RecvOutcome.failed code => (-((code.val : Int) + 1), [], w.log (Call.recv handle maxLen))
  | RecvOutcome.got data =>
      (((data.take maxLen).length : Nat), data.take maxLen, w.log (Call.recv handle maxLen))

/-- The return value of `rt_dev_socket`. -/
def socket (w : Net) (protocolUDP : Bool) : Int × Net :=
  (w.socketOut w.calls.length, w.log (Call.socket protocolUDP))

/-- The return value of `rt_dev_close(handle)`. -/
def close (w : Net) (handle : Int) : Int × Net :=
  (w.closeOut w.calls.length, w.log (Call.close handle))

end Net

/-! ## The sensor object -/

/-- The record `response_s`: the last decoded response and the two calibration
scale factors. -/
structure Response where
  rdt_sequence : Nat
  ft_sequence : Nat
  status : Nat
  Fx : Int
  Fy : Int
  Fz : Int
  Tx : Int
  Ty : Int
  Tz : Int
  cpt : Nat
  cpf : Nat
  deriving DecidableEq, Repr

/-- The record `command_s` held in `cmd_`. -/
structure Command where
  command : Nat
  sample_count : Nat
  deriving DecidableEq, Repr

/-- The member variables of `FTSensor`. -/
structure FTSensor where
  initialized_ : Bool
  ip : List Char
  port : Nat
  cmd_ : Command
  calibration_index : Int
  socketHandle_ : Int
  socketHTTPHandle_ : Int
  resp_ : Response
  rdt_rate_ : Int
  request_ : List Nat
  response_ : List Nat
  response_ret_ : Int
  xml_c_ : List Nat
  xml_s_ : List Char
  setbias_ : List Int
  deriving DecidableEq, Repr

namespace FTSensor

/-- Member function `FTSensor::setCommand`. -/
def setCommand (cmd : Nat) (s : FTSensor) : FTSensor :=
  { s with cmd_ := { s.cmd_ with command := cmd % 65536 } }

/-- Member function `FTSensor::setSampleCount`. -/
def setSampleCount (sample_count : Nat) (s : FTSensor) : FTSensor :=
  { s with cmd_ := { s.cmd_ with sample_count := sample_count % 4294967296 } }

/-- Member function `FTSensor::isInitialized`. -/
def isInitialized (s : FTSensor) : Bool := s.initialized_

/-- The contents of `request_` after the three stores of `sendCommand(cmd)`. -/
def requestBytes (H : Header) (littleEndian : Bool) (cmd : Nat) (s : FTSensor) : List Nat :=
  let r0 := writeAt s.request_ 0 (store16 littleEndian (htons littleEndian H.command_header))
  let r1 := writeAt r0 2 (store16 littleEndian (htons littleEndian cmd))
  writeAt r1 4 (store32 littleEndian (htonl littleEndian s.cmd_.sample_count))

/-- Member function `FTSensor::sendCommand(uint16_t cmd)`: fill `request_`, send all of it on the
data socket, and compare the return value, converted to `size_t`, with
`sizeof(request_)`. -/
def sendCommand (H : Header) (cmd : Nat) (s : FTSensor) (w : Net) : Bool × FTSensor × Net :=
  let s1 := { s with request_ := requestBytes H w.hostLittleEndian cmd s }
  let r := w.send s1.socketHandle_ (s1.request_.take sizeofRequest)
  (decide (toSizeT r.1 = sizeofRequest), s1, r.2)

/-- Member function `FTSensor::sendCommand()`: send the stored command code. -/
def sendCommand0 (H : Header) (s : FTSensor) (w : Net) : Bool × FTSensor × Net :=
  sendCommand H s.cmd_.command s w

/-- Member function `FTSensor::getResponse`: one receive into `response_`, then the nine fields are
decoded from `response_` whatever the receive returned. -/
def getResponse (s : FTSensor) (w : Net) : Bool × FTSensor × Net :=
  let r := w.recv s.socketHandle_ sizeofResponse
  let buf := writeAt s.response_ 0 r.2.1
  let le := w.hostLittleEndian
  let resp : Response :=
    { s.resp_ with
      rdt_sequence := ntohl le (load32 le buf 0)
      ft_sequence := ntohl le (load32 le buf 4)
      status := ntohl le (load32 le buf 8)
      Fx := toInt32 (ntohl le (toUInt32 (loadInt32 le buf (12 + 0 * 4))))
      Fy := toInt32 (ntohl le (toUInt32 (loadInt32 le buf (12 + 1 * 4))))
      Fz := toInt32 (ntohl le (toUInt32 (loadInt32 le buf (12 + 2 * 4))))
      Tx := toInt32 (ntohl le (toUInt32 (loadInt32 le buf (12 + 3 * 4))))
      Ty := toInt32 (ntohl le (toUInt32 (loadInt32 le buf (12 + 4 * 4))))
      Tz := toInt32 (ntohl le (toUInt32 (loadInt32 le buf (12 + 5 * 4)))) }
  (decide (r.1 = RDT_RECORD_SIZE),
    { s with response_ret_ := r.1, response_ := buf, resp_ := resp }, r.2.2)

/-- Member function `FTSensor::doComm`: on an initialized sensor, re-send the stored command when
`sample_count != 0`, then read one response; both results are only logged. -/
def doComm (H : Header) (s : FTSensor) (w : Net) : FTSensor × Net :=
  if s.isInitialized then
    let a : FTSensor × Net :=
      if s.cmd_.sample_count ≠ 0 then
        let r := sendCommand0 H s w
        (r.2.1, r.2.2)
      else (s, w)
    let g := getResponse a.1 a.2
    (g.2.1, g.2.2)
  else (s, w)

/-- Member function `FTSensor::stopStreaming`. -/
def stopStreaming (H : Header) (s : FTSensor) (w : Net) : Bool × FTSensor × Net :=
  sendCommand H H.STOP s w

/-- Member function `FTSensor::resetThresholdLatch`. -/
def resetThresholdLatch (H : Header) (s : FTSensor) (w : Net) : Bool × FTSensor × Net :=
  sendCommand H H.RESET_THRESHOLD_LATCH s w

/-- Member function `FTSensor::setSoftwareBias`. -/
def setSoftwareBias (H : Header) (s : FTSensor) (w : Net) : Bool × FTSensor × Net :=
  sendCommand H H.SET_SOFWARE_BIAS s w

/-- Member function `FTSensor::startBufferedStreaming(sample_count)`. -/
def startBufferedStreaming (H : Header) (sample_count : Nat) (s : FTSensor) (w : Net) :
    Bool × FTSensor × Net :=
  sendCommand0 H (setCommand H.BUFFERED (setSampleCount sample_count s)) w

/-- Member function `FTSensor::startMultiUnitStreaming(sample_count)`. -/
def startMultiUnitStreaming (H : Header) (sample_count : Nat) (s : FTSensor) (w : Net) :
    Bool × FTSensor × Net :=
  sendCommand0 H (setCommand H.MULTIUNIT (setSampleCount sample_count s)) w

/-- Member function `FTSensor::startRealTimeStreaming(sample_count)`. -/
def startRealTimeStreaming (H : Header) (sample_count : Nat) (s : FTSensor) (w : Net) :
    Bool × FTSensor × Net :=
  sendCommand0 H (setCommand H.REALTIME (setSampleCount sample_count s)) w

/-- Member function `FTSensor::startStreaming()`: the `switch` on the stored command code,
each start with its default sample count. -/
def startStreaming0 (H : Header) (s : FTSensor) (w : Net) : Bool × FTSensor × Net :=
  if s.cmd_.command = H.REALTIME then startRealTimeStreaming H H.defaultRealTimeSamples s w
  else if s.cmd_.command = H.BUFFERED then startBufferedStreaming H H.defaultBufferedSamples s w
  else if s.cmd_.command = H.MULTIUNIT then
    startMultiUnitStreaming H H.defaultMultiUnitSamples s w
  else (false, s, w)

/-- Member function `FTSensor::startStreaming(int nb_samples)`. -/
def startStreaming (H : Header) (nb_samples : Int) (s : FTSensor) (w : Net) :
    Bool × FTSensor × Net :=
  if nb_samples < 0 then startStreaming0 H s w
  else
    let sample_count := toUInt32 nb_samples
    if s.cmd_.command = H.REALTIME then startRealTimeStreaming H sample_count s w
    else if s.cmd_.command = H.BUFFERED then startBufferedStreaming H sample_count s w
    else if s.cmd_.command = H.MULTIUNIT then startMultiUnitStreaming H sample_count s w
    else (false, s, w)

end FTSensor

/-! ## `std::string` and libc helpers -/

/-- The bytes of an ASCII string. -/
def bytesOf (s : List Char) : List Nat := s.map Char.toNat

/-- The `std::string` a `char` buffer converts to: the bytes before the first NUL. -/
def cstring (buf : List Nat) : List Char :=
  (buf.takeWhile (fun b => b % 256 != 0)).map (fun b => Char.ofNat (b % 256))

/-- The constant `std::string::npos`, the largest `size_t`. -/
def npos : Nat := 18446744073709551615

/-- Addition of two `size_t`. -/
def sizeAdd (a b : Nat) : Nat := (a + b) % 18446744073709551616

/-- Subtraction of two `size_t`. -/
def sizeSub (a b : Nat) : Nat :=
  (a + 18446744073709551616 - b % 18446744073709551616) % 18446744073709551616

/-- Search of `pat` in the rest of a string whose first character has index `i`. -/
def findAux (pat : List Char) : List Char → Nat → Nat
  | [], i => if pat = [] then i else npos
  | c :: cs, i => if pat.isPrefixOf (c :: cs) then i else findAux pat cs (i + 1)

/-- The call `str.find(pat, pos)`: the first index at or after `pos` where `pat`
occurs, `npos` when there is none. -/
def strFind (str pat : List Char) (pos : Nat) : Nat :=
  if pos > str.length then npos else findAux pat (str.drop pos) pos

/-- Search of the first character other than `delim`. -/
def findNotAux (delim : Char) : List Char → Nat → Nat
  | [], _ => npos
  | c :: cs, i => if c ≠ delim then i else findNotAux delim cs (i + 1)

/-- The call `str.find_first_not_of(delim, pos)`. -/
def strFindFirstNotOf (str : List Char) (delim : Char) (pos : Nat) : Nat :=
  if pos ≥ str.length then npos else findNotAux delim (str.drop pos) pos

/-- The call `str.substr(pos, count)`; `none` is the exception `std::out_of_range`,
thrown when `pos > str.size()`. -/
def strSubstr (str : List Char) (pos count : Nat) : Option (List Char) :=
  if pos > str.length then none else some ((str.drop pos).take count)

/-- The C white-space characters skipped by `atoi`, `atof` and stream extraction. -/
def isSpaceC (c : Char) : Bool :=
  c = ' ' || c = '\t' || c = '\n' || c = '\r' || c.toNat = 11 || c.toNat = 12

/-- The value of the leading decimal digits of a string, most significant first. -/
def digitsValue : List Char → Nat → Nat
  | [], acc => acc
  | c :: cs, acc => if c.isDigit then digitsValue cs (acc * 10 + (c.toNat - 48)) else acc

/-- The integer a string starts with after white space and an optional sign; 0 when
there are no digits. -/
def leadingInteger (str : List Char) : Int :=
  match str.dropWhile isSpaceC with
  | '-' :: rest => -((digitsValue rest 0 : Nat) : Int)
  | '+' :: rest => ((digitsValue rest 0 : Nat) : Int)
  | rest => ((digitsValue rest 0 : Nat) : Int)

/-- The value `::atof(str)` when it is a whole number that the text gives in plain
decimal form: white space, an optional sign, decimal digits, optionally a point
followed by zeros only.  `none` when `strtod` may read the text in another way, which
is not modelled: an exponent (`e`, `E` after the number), a hexadecimal form (`x`,
`X` after the digits), a fraction with a digit other than 0, or a text that starts,
after the sign, with a point or with the first letter of `inf` or `nan`, or digits
whose value is above 2^53 and may be rounded by the `double`.  A text with no number
gives 0, as `atof` does. -/
def atofWhole (str : List Char) : Option Int :=
  let r := str.dropWhile isSpaceC
  let body : List Char :=
    match r with
    | '-' :: t => t
    | '+' :: t => t
    | t => t
  let digits := body.takeWhile Char.isDigit
  let rest := body.dropWhile Char.isDigit
  let magnitude : Int := ((digitsValue digits 0 : Nat) : Int)
  let value : Int := if r.head? = some '-' then -magnitude else magnitude
  if digits = [] then
    match rest with
    | [] => some 0
    | c :: _ => if c = '.' ∨ c = 'i' ∨ c = 'I' ∨ c = 'n' ∨ c = 'N' then none else some 0
  else if magnitude > 9007199254740992 then none
  else
    match rest with
    | [] => some value
    | '.' :: frac =>
      if (frac.takeWhile Char.isDigit).all (fun d => d = '0')
          ∧ (frac.dropWhile Char.isDigit).head? ≠ some 'e'
          ∧ (frac.dropWhile Char.isDigit).head? ≠ some 'E' then some value
      else none
    | c :: _ => if c = 'e' ∨ c = 'E' ∨ c = 'x' ∨ c = 'X' then none else some value

/-- The conversion `static_cast<int>(::atof(str))` on the texts `atofWhole` reads, when
the value is in the range of `int`; `none` otherwise (the conversion of a value out
of range is undefined). -/
def atofToInt (str : List Char) : Option Int :=
  match atofWhole str with
  | none => none
  | some v => if -2147483648 ≤ v ∧ v ≤ 2147483647 then some v else none

/-- The conversion `static_cast<uint32_t>(::atof(str))` on the texts `atofWhole` reads,
when the value is in the range of `uint32_t`; `none` otherwise. -/
def atofToUInt32 (str : List Char) : Option Nat :=
  match atofWhole str with
  | none => none
  | some v => if 0 ≤ v ∧ v ≤ 4294967295 then some v.toNat else none

/-- The libc `atoi`: the integer the text starts with after white space and an
optional sign, 0 without digits; `none` when the value is out of the range of `int`
(the result is then undefined). -/
def atoi (str : List Char) : Option Int :=
  if -2147483648 ≤ leadingInteger str ∧ leadingInteger str ≤ 2147483647 then
    some (leadingInteger str)
  else none

/-- Whether a string holds an integer after its leading white space. -/
def startsWithInteger (str : List Char) : Bool :=
  match str.dropWhile isSpaceC with
  | '-' :: c :: _ => c.isDigit
  | '+' :: c :: _ => c.isDigit
  | c :: _ => c.isDigit
  | [] => false

/-- The extraction `ss >> value` of an `int` from a stream holding `str`: at the end
of the stream `value` is left as it was, on unparsable text it becomes 0, and a value
out of the range of `int` is stored as the nearest bound. -/
def streamExtractInt (str : List Char) (old : Int) : Int :=
  if str.dropWhile isSpaceC = [] then old
  else if startsWithInteger str then
    if leadingInteger str > 2147483647 then 2147483647
    else if leadingInteger str < -2147483648 then -2147483648
    else leadingInteger str
  else 0

/-- The text `ss << n` writes for an unsigned value. -/
def showNat (n : Nat) : List Char := (Nat.repr n).toList

/-- The text `ss << v` writes for an `int`. -/
def showInt (v : Int) : List Char :=
  if v < 0 then '-' :: (Nat.repr v.natAbs).toList else (Nat.repr v.toNat).toList

/-- The comparison `strncmp(a, b, n) == 0` on two NUL-terminated buffers; a read past
the end of a list reads the terminating NUL. -/
def strncmpEq : List Nat → List Nat → Nat → Bool
  | _, _, 0 => true
  | a, b, n + 1 =>
    let x := a.headD 0 % 256
    let y := b.headD 0 % 256
    if x ≠ y then false
    else if x = 0 then true
    else strncmpEq a.tail b.tail n

/-! ## XML helpers of `ft_sensor.cpp` -/

/-- Function `findElementRecusive`: walk the siblings from `a_node`; an element named
`element_to_find` overwrites `ret` with the content of its first child and is not
descended into, every other node is descended into.  `none` is the crash of the
source on a matching element without children, or whose first child has no content. -/
def findElementRecusive : XmlNode → List Char → List Char → Option (List Char)
  | XmlNode.null, _, ret => some ret
  | XmlNode.node isElement name _ children next, element_to_find, ret =>
    if isElement && decide (name = element_to_find) then
      match children with
      | XmlNode.null => none
      | XmlNode.node _ _ none _ _ => none
      | XmlNode.node _ _ (some text) _ _ => findElementRecusive next element_to_find text
    else
      match findElementRecusive children element_to_find ret with
      | none => none
      | some ret1 => findElementRecusive next element_to_find ret1

/-- Function `getStringInXml`: the text from just after the open tag, `n_end` characters long
at most, where `n_end` is the index of the close tag.  Neither search result is
checked against `npos`.  `none` is the exception of `substr`. -/
def getStringInXml (xml_s tag : List Char) : Option (List Char) :=
  let tag_open := '<' :: (tag ++ ['>'])
  let tag_close := '<' :: '/' :: (tag ++ ['>'])
  let n_start := strFind xml_s tag_open 0
  let n_end := strFind xml_s tag_close 0
  strSubstr xml_s (sizeAdd n_start tag_open.length) n_end

/-- Function `getNumberInXml<uint32_t>`; `none` is the exception of `getStringInXml` or a text
that `atofToUInt32` does not read. -/
def getNumberInXmlUInt32 (xml_s tag : List Char) : Option Nat :=
  (getStringInXml xml_s tag).bind atofToUInt32

/-- Function `getNumberInXml<int>`; `none` is the exception of `getStringInXml` or a text that
`atofToInt` does not read. -/
def getNumberInXmlInt (xml_s tag : List Char) : Option Int :=
  (getStringInXml xml_s tag).bind atofToInt

/-- Store `v` at index `idx` of an `int` array. -/
def setAt (data : List Int) (idx : Nat) (v : Int) : List Int := data.set idx v

/-- The loop of `getArrayFromString<int>`.  The conversion
`static_cast<int>(::atof(token.c_str()))` is the parameter `conv`.  The first numeric
argument bounds the number of iterations and `none` means it was too small, `substr`
threw, or `conv` gave no value; each iteration increments `idx`, so `len` iterations
are always enough.  The result is the array and the final `idx`. -/
def getArrayLoop (conv : List Char → Option Int) (str : List Char) (delim : Char) (len : Nat) :
    Nat → Nat → Nat → List Int → Option (List Int × Nat)
  | 0, start, idx, data => if start ≠ npos ∧ idx < len then none else some (data, idx)
  | fuel + 1, start, idx, data =>
    if start ≠ npos ∧ idx < len then
      let end_ := strFind str [delim] start
      match strSubstr str start (sizeSub end_ start) with
      | none => none
      | some token =>
        match conv (if token = [] then ['0', '.', '0'] else token) with
        | none => none
        | some r =>
          getArrayLoop conv str delim len fuel (strFindFirstNotOf str delim end_) (idx + 1)
            (setAt data idx r)
    else some (data, idx)

/-- Function `getArrayFromString<int>(str, delim, data, len)`, with the conversion of a token
as the parameter `conv`: the result `idx == len` and the new contents of `data`. -/
def getArrayFromString (conv : List Char → Option Int) (str : List Char) (delim : Char)
    (data : List Int) (len : Nat) : Option (Bool × List Int) :=
  match getArrayLoop conv str delim len len (strFindFirstNotOf str delim 0) 0 data with
  | none => none
  | some r => some (decide (r.2 = len), r.1)

/-- Function `getArrayFromXml<int>`; `none` is the exception of `getStringInXml` or the `none`
of `getArrayFromString`. -/
def getArrayFromXml (xml_s tag : List Char) (delim : Char) (data : List Int) (len : Nat) :
    Option (Bool × List Int) :=
  (getStringInXml xml_s tag).bind (fun str => getArrayFromString atofToInt str delim data len)

/-! ## The HTTP channel -/

namespace FTSensor

/-- Member function `FTSensor::getIP`. -/
def getIP (s : FTSensor) : List Char := s.ip

/-- Member function `FTSensor::getPort`. -/
def getPort (s : FTSensor) : Nat := s.port

/-- The constant `chunkSize` of `sendTCPrequest` and `getCalibrationData`. -/
def chunkSize : Nat := 4

/-- The constant `maxSize` of `sendTCPrequest` and `getCalibrationData`. -/
def maxSize : Nat := 65536

/-- The receive loop shared by `sendTCPrequest` and the RTnet calibration fetch:
`while (posBuff < maxSize)`, receive a chunk of at most `chunkSize` bytes at
`xml_c_[posBuff]`, add the return value to `posBuff`, leave the loop when the return
value is not positive.  The first argument bounds the number of iterations and `none`
means it was too small; every iteration that goes on adds at least one to `posBuff`,
so `maxSize` iterations are enough (`recvLoop_returns`).  The result is the object,
the network and the final `posBuff`. -/
def recvLoop : Nat → FTSensor → Net → Int → Option (FTSensor × Net × Int)
  | 0, s, w, posBuff => if toUInt32 posBuff < maxSize then none else some (s, w, posBuff)
  | fuel + 1, s, w, posBuff =>
    if toUInt32 posBuff < maxSize then
      let r := w.recv s.socketHTTPHandle_ chunkSize
      let s1 := { s with xml_c_ := writeAt s.xml_c_ posBuff.toNat r.2.1 }
      if r.1 ≤ 0 then some (s1, r.2.2, posBuff + r.1)
      else recvLoop fuel s1 r.2.2 (posBuff + r.1)
    else some (s, w, posBuff)

/-- The literal `"HTTP/1.0 302 Found"` of `sendTCPrequest`. -/
def awaited_response : List Char := "HTTP/1.0 302 Found".toList

/-- The text of the request `sendTCPrequest` sends for `request_cmd`. -/
def httpRequest10 (request_cmd host : List Char) : List Char :=
  "GET ".toList ++ request_cmd ++ " HTTP/1.0\r\nHost: ".toList ++ host ++ "\r\n\r\n".toList

/-- Member function `FTSensor::sendTCPrequest`: nothing is sent for an empty command; a negative
return of the send is a failure; then the answer is read by `recvLoop` and the result
is true when `posBuff > 4` and the first 18 characters of `xml_c_` are
`awaited_response`. -/
def sendTCPrequest (request_cmd : List Char) (s : FTSensor) (w : Net) :
    Option (Bool × FTSensor × Net) :=
  if request_cmd = [] then some (false, s, w)
  else
    let request_s := httpRequest10 request_cmd s.getIP
    let r := w.send s.socketHTTPHandle_ (bytesOf request_s)
    if r.1 < 0 then some (false, s, r.2)
    else
      match recvLoop maxSize s r.2 0 with
      | none => none
      | some (s1, w1, posBuff) =>
        if posBuff > 4 then
          if strncmpEq s1.xml_c_ (bytesOf awaited_response) 18 then some (true, s1, w1)
          else some (false, s1, w1)
        else some (false, s1, w1)

/-- Member function `FTSensor::setRDTOutputRate`. -/
def setRDTOutputRate (rate : Nat) (s : FTSensor) (w : Net) : Option (Bool × FTSensor × Net) :=
  if rate > 0 ∧ rate ≤ 7000 then
    let cmd := "/comm.cgi?comrdtrate=".toList ++ showNat rate
    match sendTCPrequest cmd s w with
    | none => none
    | some (true, s1, w1) => some (true, { s1 with rdt_rate_ := rate }, w1)
    | some (false, s1, w1) => some (false, s1, w1)
  else some (false, s, w)

/-- A `std::map<unsigned int, int>`, as the list of its entries in iteration order. -/
abbrev GaugeMap := List (Nat × Int)

/-- The assignment `map[key] = value` on a map kept in increasing key order. -/
def mapAssign (key : Nat) (value : Int) : GaugeMap → GaugeMap
  | [] => [(key, value)]
  | (k, v) :: rest =>
    if key < k then (key, value) :: (k, v) :: rest
    else if key = k then (key, value) :: rest
    else (k, v) :: mapAssign key value rest

/-- The loop of `setGaugeBias(std::map&)` that prepares the query; `none` is the
early `return false` on a gauge number that is not below 6. -/
def gaugeQuery : GaugeMap → Bool → List Char → Option (List Char)
  | [], _, setbias_ss => some setbias_ss
  | (gauge, bias) :: rest, first_element, setbias_ss =>
    if gauge < 6 then
      gaugeQuery rest false
        (setbias_ss ++ (if first_element then ['?'] else ['&'])
          ++ "setbias".toList ++ showNat gauge ++ ['='] ++ showInt bias)
    else none

/-- Member function `FTSensor::setGaugeBias(std::map<unsigned int, int>&)`. -/
def setGaugeBias (gauge_map : GaugeMap) (s : FTSensor) (w : Net) :
    Option (Bool × FTSensor × Net) :=
  match gaugeQuery gauge_map true [] with
  | none => some (false, s, w)
  | some setbias_ss => sendTCPrequest ("/setting.cgi".toList ++ setbias_ss) s w

/-- The map built by `setGaugeBias(std::vector<int>&)`: `map[i] = gauge_vect[i]` for
`i` from `i0` on, the index converted to `unsigned int`. -/
def vectorToMap : List Int → Nat → GaugeMap → GaugeMap
  | [], _, m => m
  | v :: rest, i, m => vectorToMap rest (i + 1) (mapAssign (i % 4294967296) v m)

/-- Member function `FTSensor::setGaugeBias(std::vector<int>&)`. -/
def setGaugeBiasVector (gauge_vect : List Int) (s : FTSensor) (w : Net) :
    Option (Bool × FTSensor × Net) :=
  setGaugeBias (vectorToMap gauge_vect 0 []) s w

/-- Member function `FTSensor::setGaugeBias(unsigned int gauge_idx, int gauge_bias)`. -/
def setGaugeBiasIndex (gauge_idx : Nat) (gauge_bias : Int) (s : FTSensor) (w : Net) :
    Option (Bool × FTSensor × Net) :=
  setGaugeBias (mapAssign gauge_idx gauge_bias []) s w

/-- Member function `FTSensor::getGaugeBias`. -/
def getGaugeBias (s : FTSensor) : List Int := s.setbias_.take 6

/-! ## Calibration -/

/-- The suffix `index` of `getCalibrationData`. -/
def calibrationSuffix (H : Header) (s : FTSensor) : List Char :=
  if s.calibration_index ≠ H.current_calibration then
    "?index=".toList ++ showInt s.calibration_index
  else []

/-- Member function `FTSensor::getCalibrationData` without `HAVE_RTNET`: the document is read by
libxml2.  When a document is returned the two scale factors are overwritten with
`atoi` of the text found, the bias array is parsed, the rate is extracted, and the
result is true.  `none` is a crash inside `findElementRecusive`, or a text that `atoi`
or `atofToInt` does not read. -/
def getCalibrationDataXml (H : Header) (s : FTSensor) (w : Net) :
    Option (Bool × FTSensor × Net) :=
  let filename := "http://".toList ++ s.getIP ++ "/netftapi2.xml".toList ++ calibrationSuffix H s
  let w1 := w.log (Call.xmlReadFile filename)
  match w.xmlOut w.calls.length with
  | some root_element =>
    match findElementRecusive root_element "cfgcpf".toList [] with
    | none => none
    | some cfgcpf =>
    match atoi cfgcpf with
    | none => none
    | some cpf =>
    match findElementRecusive root_element "cfgcpt".toList [] with
    | none => none
    | some cfgcpt =>
    match atoi cfgcpt with
    | none => none
    | some cpt =>
    match findElementRecusive root_element "setbias".toList [] with
    | none => none
    | some setbias =>
    match getArrayFromString atofToInt setbias ';' s.setbias_ 6 with
    | none => none
    | some parsed =>
    match findElementRecusive root_element "comrdtrate".toList [] with
    | none => none
    | some cfgcomrdtrate =>
      some (true,
        { s with
          resp_ := { s.resp_ with cpf := toUInt32 cpf, cpt := toUInt32 cpt }
          setbias_ := parsed.2
          rdt_rate_ := streamExtractInt cfgcomrdtrate s.rdt_rate_ }, w1)
  | none => some (false, s, w1)

/-- The text of the request the RTnet calibration fetch sends. -/
def httpRequest11 (filename host : List Char) : List Char :=
  "GET ".toList ++ filename ++ " HTTP/1.1\r\nHost: ".toList ++ host ++ "\r\n\r\n".toList

/-- Member function `FTSensor::getCalibrationData` with `HAVE_RTNET`: the page is fetched on
the HTTP socket (a failed send is only logged), copied to `xml_s_`, and searched as text.  The
scale factors are stored, and the result is true, only when both are non-zero.
`none` is an exception of `getStringInXml`, or a text that `atofToInt` or
`atofToUInt32` does not read. -/
def getCalibrationDataRtnet (H : Header) (s : FTSensor) (w : Net) :
    Option (Bool × FTSensor × Net) :=
  let filename := "/netftapi2.xml".toList ++ calibrationSuffix H s
  let request_s := httpRequest11 filename s.getIP
  let r := w.send s.socketHTTPHandle_ (bytesOf request_s)
  match recvLoop maxSize s r.2 0 with
  | none => none
  | some (s1, w1, _) =>
    let s2 := { s1 with xml_s_ := cstring s1.xml_c_ }
    match getNumberInXmlUInt32 s2.xml_s_ "cfgcpf".toList with
    | none => none
    | some cfgcpf_r =>
    match getNumberInXmlUInt32 s2.xml_s_ "cfgcpt".toList with
    | none => none
    | some cfgcpt_r =>
    match getNumberInXmlInt s2.xml_s_ "comrdtrate".toList with
    | none => none
    | some cfgcomrdtrate =>
    let s3 := { s2 with rdt_rate_ := cfgcomrdtrate }
    match getArrayFromXml s3.xml_s_ "setbias".toList ';' s3.setbias_ 6 with
    | none => none
    | some parsed =>
      let s4 := { s3 with setbias_ := parsed.2 }
      if cfgcpf_r ≠ 0 ∧ cfgcpt_r ≠ 0 then
        some (true, { s4 with resp_ := { s4.resp_ with cpf := cfgcpf_r, cpt := cfgcpt_r } }, w1)
      else some (false, s4, w1)

/-- Member function `FTSensor::getCalibrationData`: one of the two bodies, by `HAVE_RTNET`. -/
def getCalibrationData (H : Header) (s : FTSensor) (w : Net) : Option (Bool × FTSensor × Net) :=
  if H.HAVE_RTNET then getCalibrationDataRtnet H s w else getCalibrationDataXml H s w

/-! ## Lifecycle -/

/-- Member function `FTSensor::openSocket`: close the handle when it is not -1, create the
socket, and when that gave a non-negative handle look the address up and connect (a
failed connect is only logged).  The result is the new value of the handle.  `none` is
the crash of the source when `gethostbyname` finds no address: its null result is
dereferenced.  Socket options are not traced. -/
def openSocket (handle : Int) (ip : List Char) (port : Nat) (protocolUDP : Bool) (w : Net) :
    Option (Int × Net) :=
  let w1 := if handle ≠ -1 then (w.close handle).2 else w
  let r := w1.socket protocolUDP
  if r.1 < 0 then some (r.1, r.2)
  else if w.resolves ip then some (r.1, r.2.log (Call.connect r.1 ip port))
  else none

/-- Member function `FTSensor::openSockets`: the HTTP socket on port 80, then the data socket;
the result is whether both handles differ from -1. -/
def openSockets (s : FTSensor) (w : Net) : Option (Bool × FTSensor × Net) :=
  match openSocket s.socketHTTPHandle_ s.getIP 80 false w with
  | none => none
  | some a =>
    let s1 := { s with socketHTTPHandle_ := a.1 }
    match openSocket s1.socketHandle_ s1.getIP s1.getPort true a.2 with
    | none => none
    | some b =>
      let s2 := { s1 with socketHandle_ := b.1 }
      some (decide (s2.socketHTTPHandle_ ≠ -1) && decide (s2.socketHandle_ ≠ -1), s2, b.2)

/-- Member function `FTSensor::closeSocket`: a negative handle is not closed and gives 1. -/
def closeSocket (handle : Int) (w : Net) : Int × Net :=
  if handle < 0 then (1, w) else w.close handle

/-- Member function `FTSensor::closeSockets`: `closeSocket(socketHandle_) > 0 &&
closeSocket(socketHTTPHandle_) > 0`, the second operand evaluated only when the first
holds. -/
def closeSockets (s : FTSensor) (w : Net) : Bool × Net :=
  let a := closeSocket s.socketHandle_ w
  if a.1 > 0 then
    let b := closeSocket s.socketHTTPHandle_ a.2
    (decide (b.1 > 0), b.2)
  else (false, a.2)

/-- Constructor `FTSensor::FTSensor()`: the members the constructor assigns; the others keep the
indeterminate values of `raw`. -/
def construct (H : Header) (raw : FTSensor) : FTSensor :=
  { raw with
    initialized_ := false
    ip := H.default_ip
    port := H.DEFAULT_PORT
    cmd_ := { command := H.STOP, sample_count := 1 }
    calibration_index := H.current_calibration
    socketHandle_ := -1
    resp_ := { raw.resp_ with cpf := 1000000, cpt := 1000000 }
    rdt_rate_ := 0 }

/-- Destructor `FTSensor::~FTSensor()`: `stopStreaming()`, then `closeSockets()`. -/
def destruct (H : Header) (s : FTSensor) (w : Net) : FTSensor × Net :=
  let a := stopStreaming H s w
  let b := closeSockets a.2.1 a.2.2
  (a.2.1, b.2)

/-- The first statements of `FTSensor::init`: the members are set again, with
`initialized_ = true`. -/
def initEntry (H : Header) (ip : List Char) (calibration_index : Int) (s : FTSensor) : FTSensor :=
  { s with
    initialized_ := true
    ip := ip
    port := H.DEFAULT_PORT
    cmd_ := { command := H.STOP, sample_count := 1 }
    calibration_index := calibration_index }

/-- The statements of `FTSensor::init` that follow a successful `openSockets()`, on the
object and network it left.  The result of `stopStreaming` is only logged;
`initialized_` accumulates, by `&=`, the results of `startStreaming` and
`getResponse`, both always called; `getCalibrationData` is called when `initialized_`
still holds and its result is dropped.  Setting the receive timeout on the data
socket is not traced.  `none` is the `none` of `getCalibrationData`. -/
def initAfterOpen (H : Header) (cmd : Nat) (sample_count : Int) (s : FTSensor) (w : Net) :
    Option (Bool × FTSensor × Net) :=
  let st := stopStreaming H s w
  let s1 := setCommand cmd st.2.1
  let a := startStreaming H sample_count s1 st.2.2
  let s2 := { a.2.1 with initialized_ := a.2.1.initialized_ && a.1 }
  let g := getResponse s2 a.2.2
  let s3 := { g.2.1 with initialized_ := g.2.1.initialized_ && g.1 }
  if s3.initialized_ then
    match getCalibrationData H s3 g.2.2 with
    | none => none
    | some c => some (c.2.1.initialized_, c.2.1, c.2.2)
  else some (s3.initialized_, s3, g.2.2)

/-- Member function `FTSensor::init`.  With an empty `ip`, or when `openSockets` gives false,
`initialized_` is cleared and nothing else is done; otherwise the statements of
`initAfterOpen` follow.  `none` is the crash of `openSocket` or the `none` of
`initAfterOpen`. -/
def init (H : Header) (ip : List Char) (calibration_index : Int) (cmd : Nat) (sample_count : Int)
    (s : FTSensor) (w : Net) : Option (Bool × FTSensor × Net) :=
  if ip = [] then some (false, { initEntry H ip calibration_index s with initialized_ := false }, w)
  else
    match openSockets (initEntry H ip calibration_index s) w with
    | none => none
    | some o =>
      if o.1 then initAfterOpen H cmd sample_count o.2.1 o.2.2
      else some (false, { o.2.1 with initialized_ := false }, o.2.2)

/-- The number of the `socket()` call `init` makes for the HTTP channel: the calls made
before, and the close of a handle that is not -1. -/
def httpSocketCall (s : FTSensor) (w : Net) : Nat :=
  w.calls.length + (if s.socketHTTPHandle_ = -1 then 0 else 1)

/-- The number of the `socket()` call `init` makes for the data channel: after the HTTP
`socket()` call, its connect when it gave a non-negative handle, and the close of a
data handle that is not -1. -/
def dataSocketCall (s : FTSensor) (w : Net) : Nat :=
  httpSocketCall s w + (if w.socketOut (httpSocketCall s w) < 0 then 1 else 2)
    + (if s.socketHandle_ = -1 then 0 else 1)

/-- The number of the first call `init` makes after `openSockets()`, the STOP send:
after the data `socket()` call and its connect when it gave a non-negative handle. -/
def stopSendCall (s : FTSensor) (w : Net) : Nat :=
  dataSocketCall s w + (if w.socketOut (dataSocketCall s w) < 0 then 1 else 2)

/-- Whether a command code is one of the three streaming modes `startStreaming`
accepts. -/
def isStreamingMode (H : Header) (cmd : Nat) : Prop :=
  cmd % 65536 = H.REALTIME ∨ cmd % 65536 = H.BUFFERED ∨ cmd % 65536 = H.MULTIUNIT

instance (H : Header) (cmd : Nat) : Decidable (isStreamingMode H cmd) := by
  unfold isStreamingMode
  infer_instance

end FTSensor

/-- A Response record whose fields fit their wire types: three `uint32_t` and six
`int32_t`. -/
def Response.fits (r : Response) : Prop :=
  r.rdt_sequence < 4294967296 ∧ r.ft_sequence < 4294967296 ∧ r.status < 4294967296
  ∧ (-2147483648 ≤ r.Fx ∧ r.Fx < 2147483648) ∧ (-2147483648 ≤ r.Fy ∧ r.Fy < 2147483648)
  ∧ (-2147483648 ≤ r.Fz ∧ r.Fz < 2147483648) ∧ (-2147483648 ≤ r.Tx ∧ r.Tx < 2147483648)
  ∧ (-2147483648 ≤ r.Ty ∧ r.Ty < 2147483648) ∧ (-2147483648 ≤ r.Tz ∧ r.Tz < 2147483648)

instance (r : Response) : Decidable r.fits := by
  unfold Response.fits
  infer_instance

/-! ## Wire format of a Response, as the specification words it -/

/-- Big-endian serialisation of an unsigned 32-bit value (specification side). -/
def specBE32 (x : Nat) : List Nat :=
  [x / 16777216 % 256, x / 65536 % 256, x / 256 % 256, x % 256]

/-- Two's complement big-endian serialisation of a signed 32-bit value
(specification side). -/
def specBE32s (v : Int) : List Nat := specBE32 (v % 4294967296).toNat

/-- The 36-byte serialisation of a Response record: the three unsigned fields,
then the six signed ones, in order (specification side). -/
def specResponseWire (r : Response) : List Nat :=
  specBE32 r.rdt_sequence ++ specBE32 r.ft_sequence ++ specBE32 r.status
    ++ specBE32s r.Fx ++ specBE32s r.Fy ++ specBE32s r.Fz
    ++ specBE32s r.Tx ++ specBE32s r.Ty ++ specBE32s r.Tz

/-- The 8-byte serialisation of a Command: the 16-bit header, the 16-bit command code
and the 32-bit sample count, each most significant byte first (specification side). -/
def specCommandWire (H : Header) (cmd count : Nat) : List Nat :=
  [H.command_header / 256 % 256, H.command_header % 256, cmd / 256 % 256, cmd % 256]
    ++ specBE32 count

/-! ## Tokens of a delimited list, as the specification words it -/

/-- The tokens of a delimited list, read from left to right with the token in progress
in `cur`: a delimiter ends the token in progress, and an empty piece is no token
(specification side). -/
def tokensAux (delim : Char) : List Char → List Char → List (List Char)
  | [], cur => if cur = [] then [] else [cur]
  | c :: cs, cur =>
    if c = delim then
      if cur = [] then tokensAux delim cs [] else cur :: tokensAux delim cs []
    else tokensAux delim cs (cur ++ [c])

/-- The tokens of a `delim`-delimited list: its maximal runs of characters other than
`delim` (specification side). -/
def specTokens (delim : Char) (str : List Char) : List (List Char) := tokensAux delim str []

/-- The values `conv` gives for a list of tokens, when it gives one for each. -/
def convertAll (conv : List Char → Option Int) : List (List Char) → Option (List Int)
  | [] => some []
  | token :: rest =>
    match conv token, convertAll conv rest with
    | some v, some vs => some (v :: vs)
    | _, _ => none

/-! ## Behaviour of a device on the HTTP stream -/

/-- The device delivers the chunks `chunks`, each of 1 to 4 bytes, to the receives
numbered `n`, `n + 1`, ... and then ends the stream: the next receive returns 0. -/
def delivers (recvOut : Nat → RecvOutcome) : Nat → List (List Nat) → Bool
  | n, [] => recvOut n == RecvOutcome.got []
  | n, c :: cs =>
    recvOut n == RecvOutcome.got c && decide (1 ≤ c.length) && decide (c.length ≤ 4)
      && delivers recvOut (n + 1) cs

/-- The answers of a device that accepts the request sent by call 0 and delivers
`body` four bytes at a time to the receives that follow, then ends the stream. -/
def streamAnswers (body : List Nat) : Nat → RecvOutcome :=
  fun n => RecvOutcome.got ((body.drop ((n - 1) * 4)).take 4)

/-- The pieces of `body` of four bytes each, the last one shorter when the length is
not a multiple of four; `n` bounds their number. -/
def chunksOf : Nat → List Nat → List (List Nat)
  | 0, _ => []
  | n + 1, body => if body = [] then [] else body.take 4 :: chunksOf n (body.drop 4)

/-- The bytes of `awaited_response`. -/
def awaitedBytes : List Nat := bytesOf FTSensor.awaited_response

/-! ## Sample inputs -/

/-- A header with the command codes of the Net F/T RDT interface. -/
def sampleHeader : Header :=
  { command_header := 4660
    STOP := 0
    REALTIME := 2
    BUFFERED := 3
    MULTIUNIT := 4
    RESET_THRESHOLD_LATCH := 65
    SET_SOFWARE_BIAS := 66
    DEFAULT_PORT := 49152
    defaultRealTimeSamples := 1
    defaultBufferedSamples := 100
    defaultMultiUnitSamples := 100
    default_ip := "192.168.100.103".toList
    current_calibration := -1
    HAVE_RTNET := false }

/-- The same header with the RTnet backend selected. -/
def sampleHeaderRtnet : Header := { sampleHeader with HAVE_RTNET := true }

/-- An object before its construction: the values its members happen to hold, with
no HTTP socket and an array of six biases. -/
def rawSensor : FTSensor :=
  { initialized_ := false
    ip := []
    port := 0
    cmd_ := { command := 0, sample_count := 0 }
    calibration_index := 0
    socketHandle_ := 0
    socketHTTPHandle_ := -1
    resp_ :=
      { rdt_sequence := 0, ft_sequence := 0, status := 0, Fx := 0, Fy := 0, Fz := 0, Tx := 0,
        Ty := 0, Tz := 0, cpt := 0, cpf := 0 }
    rdt_rate_ := 0
    request_ := List.replicate 8 0
    response_ := List.replicate 36 0
    response_ret_ := 0
    xml_c_ := []
    xml_s_ := []
    setbias_ := [11, 12, 13, 14, 15, 16] }

/-- A freshly constructed sensor. -/
def freshSensor : FTSensor := FTSensor.construct sampleHeader rawSensor

/-- A constructed sensor with open sockets, as a successful `init` in real-time mode
with one sample a request leaves it. -/
def runningSensor : FTSensor :=
  { freshSensor with
    initialized_ := true
    cmd_ := { command := 2, sample_count := 1 }
    socketHandle_ := 4
    socketHTTPHandle_ := 3 }

/-- A network on a little-endian host where every send is accepted in full, every
close succeeds, sockets get the handle 3, no document can be read, and the answers of
`recv` are those of `answers`. -/
def netWith (answers : Nat → RecvOutcome) : Net :=
  { hostLittleEndian := true
    sendOut := fun _ => SendOutcome.wrote 65536
    recvOut := answers
    socketOut := fun _ => 3
    closeOut := fun _ => 0
    xmlOut := fun _ => none
    resolves := fun _ => true
    calls := [] }

/-- A record with negative force fields, `Fx = -1` among them. -/
def sampleResponse : Response :=
  { rdt_sequence := 7, ft_sequence := 4000000000, status := 2147483648, Fx := -1, Fy := 5,
    Fz := -2147483648, Tx := 2147483647, Ty := -300, Tz := 0, cpt := 0, cpf := 0 }

/-- An answer with status 302 and the reason phrase of HTTP/1.0. -/
def movedBody : List Nat := bytesOf "HTTP/1.0 302 Moved Temporarily\r\n\r\n".toList

/-- The answer of the device to a setting request. -/
def foundBody : List Nat :=
  bytesOf "HTTP/1.0 302 Found\r\nLocation: /comm.htm\r\n\r\n".toList

/-- A text node. -/
def xmlText (text : List Char) : XmlNode :=
  XmlNode.node false "text".toList (some text) XmlNode.null XmlNode.null

/-- An element node with its first child and its next sibling. -/
def xmlElem (name : List Char) (children next : XmlNode) : XmlNode :=
  XmlNode.node true name none children next

/-- The calibration document
`<netft><cfgcpf>1000000</cfgcpf><cfgcpt>1000000</cfgcpt><setbias>1;2;3;4;5;6</setbias>
<comrdtrate>7000</comrdtrate></netft>`. -/
def sampleDoc : XmlNode :=
  xmlElem "netft".toList
    (xmlElem "cfgcpf".toList (xmlText "1000000".toList)
      (xmlElem "cfgcpt".toList (xmlText "1000000".toList)
        (xmlElem "setbias".toList (xmlText "1;2;3;4;5;6".toList)
          (xmlElem "comrdtrate".toList (xmlText "7000".toList) XmlNode.null))))
    XmlNode.null

/-- The calibration document `<netft><cfgcpt>1000000</cfgcpt></netft>`, without a
`cfgcpf` element. -/
def docWithoutCpf : XmlNode :=
  xmlElem "netft".toList (xmlElem "cfgcpt".toList (xmlText "1000000".toList) XmlNode.null)
    XmlNode.null

/-- The network of an `init` on a fresh sensor: the calls 0 to 3 open the two sockets
(handles 3 and 4), call 4 is the STOP send, call 5 the start send, call 6 the
confirming receive of a zeroed record, call 7 the reading of the calibration
document. -/
def initNet (stop start : SendOutcome) (doc : Option XmlNode) : Net :=
  { hostLittleEndian := true
    sendOut := fun n => if n = 4 then stop else start
    recvOut := fun _ => RecvOutcome.got (List.replicate 36 0)
    socketOut := fun n => if n = 0 then 3 else 4
    closeOut := fun _ => 0
    xmlOut := fun _ => doc
    resolves := fun _ => true
    calls := [] }

/-- The address used in the sample calls of `init`. -/
def sampleIp : List Char := "10.0.0.1".toList

/-- The calibration document
`<netft><cfgcpf>1000000</cfgcpf><cfgcpt>1000000</cfgcpt><comrdtrate>7000</comrdtrate></netft>`,
without a `setbias` element. -/
def docWithoutBias : XmlNode :=
  xmlElem "netft".toList
    (xmlElem "cfgcpf".toList (xmlText "1000000".toList)
      (xmlElem "cfgcpt".toList (xmlText "1000000".toList)
        (xmlElem "comrdtrate".toList (xmlText "7000".toList) XmlNode.null)))
    XmlNode.null

/-- The same calibration page as the RTnet backend receives it, after the status line;
it has no `setbias` element. -/
def bodyWithoutBias : List Nat :=
  bytesOf ("HTTP/1.1 200 OK\r\n\r\n<netft><cfgcpf>1000000</cfgcpf><cfgcpt>1000000</cfgcpt>"
    ++ "<comrdtrate>7000</comrdtrate></netft>").toList

/-- A calibration page whose `cfgcpf` is zero. -/
def bodyZeroCpf : List Nat :=
  bytesOf ("HTTP/1.1 200 OK\r\n\r\n<netft><cfgcpf>0</cfgcpf><cfgcpt>1000000</cfgcpt>"
    ++ "<setbias>1;2;3;4;5;6</setbias><comrdtrate>7000</comrdtrate></netft>").toList

end ati

namespace ati

/-! ## Theorems: the RDT codec and the poll -/

theorem bswap16_mod (x : Nat) :
    bswap16 (x % 65536) = (x % 256) * 256 + x / 256 % 256 := by
  have h1 : x % 65536 % 256 = x % 256 := by omega
  have h2 : x % 65536 / 256 = x / 256 % 256 := by omega
  simp only [bswap16, h1, h2, Nat.mod_mod]

theorem bswap32_mod (x : Nat) :
    bswap32 (x % 4294967296) =
      (x % 256) * 16777216 + (x / 256 % 256) * 65536 + (x / 65536 % 256) * 256
        + x / 16777216 % 256 := by
  have h1 : x % 4294967296 % 256 = x % 256 := by omega
  have h2 : x % 4294967296 / 256 % 256 = x / 256 % 256 := by omega
  have h3 : x % 4294967296 / 65536 % 256 = x / 65536 % 256 := by omega
  have h4 : x % 4294967296 / 16777216 % 256 = x / 16777216 % 256 := by omega
  simp only [bswap32, h1, h2, h3, h4]

theorem bytes16 (a b : Nat) (ha : a < 256) (hb : b < 256) :
    (a * 256 + b) % 256 = b ∧ (a * 256 + b) / 256 % 256 = a := by
  constructor <;> omega

theorem bytes32 (a b c d : Nat) (ha : a < 256) (hb : b < 256) (hc : c < 256) (hd : d < 256) :
    (a * 16777216 + b * 65536 + c * 256 + d) % 256 = d
    ∧ (a * 16777216 + b * 65536 + c * 256 + d) / 256 % 256 = c
    ∧ (a * 16777216 + b * 65536 + c * 256 + d) / 65536 % 256 = b
    ∧ (a * 16777216 + b * 65536 + c * 256 + d) / 16777216 % 256 = a := by
  refine ⟨?_, ?_, ?_, ?_⟩ <;> omega

theorem store16_htons (le : Bool) (x : Nat) :
    store16 le (htons le x) = [x / 256 % 256, x % 256] := by
  cases le
  · have h1 : x % 65536 % 256 = x % 256 := by omega
    have h2 : x % 65536 / 256 % 256 = x / 256 % 256 := by omega
    simp only [store16, htons, Bool.false_eq_true, if_false, h1, h2]
  · have hb := bytes16 (x % 256) (x / 256 % 256) (Nat.mod_lt _ (by decide)) (Nat.mod_lt _ (by decide))
    simp only [store16, htons, if_true, bswap16_mod, hb.1, hb.2]

theorem store32_htonl (le : Bool) (x : Nat) :
    store32 le (htonl le x) = [x / 16777216 % 256, x / 65536 % 256, x / 256 % 256, x % 256] := by
  cases le
  · have h1 : x % 4294967296 % 256 = x % 256 := by omega
    have h2 : x % 4294967296 / 256 % 256 = x / 256 % 256 := by omega
    have h3 : x % 4294967296 / 65536 % 256 = x / 65536 % 256 := by omega
    have h4 : x % 4294967296 / 16777216 % 256 = x / 16777216 % 256 := by omega
    simp only [store32, htonl, Bool.false_eq_true, if_false, h1, h2, h3, h4]
  · have hb := bytes32 (x % 256) (x / 256 % 256) (x / 65536 % 256) (x / 16777216 % 256)
      (Nat.mod_lt _ (by decide)) (Nat.mod_lt _ (by decide)) (Nat.mod_lt _ (by decide))
      (Nat.mod_lt _ (by decide))
    simp only [store32, htonl, if_true, bswap32_mod, hb.1, hb.2.1, hb.2.2.1, hb.2.2.2]

theorem toSizeT_send_eq (w : Net) (h : Int) (bytes : List Nat) (hb : bytes.length = 8) :
    toSizeT (w.send h bytes).1 = 8 ↔ (w.send h bytes).1 = 8 := by
  unfold Net.send toSizeT
  cases w.sendOut w.calls.length with
  | failed code => have := code.isLt; simp only []; omega
  | wrote n => simp only []; omega

theorem requestBytes_eq (H : Header) (le : Bool) (cmd : Nat) (s : FTSensor) :
    (FTSensor.requestBytes H le cmd s).take sizeofRequest =
      [H.command_header / 256 % 256, H.command_header % 256,
       cmd / 256 % 256, cmd % 256,
       s.cmd_.sample_count / 16777216 % 256, s.cmd_.sample_count / 65536 % 256,
       s.cmd_.sample_count / 256 % 256, s.cmd_.sample_count % 256] := by
  simp only [FTSensor.requestBytes, store16_htons, store32_htonl, writeAt, sizeofRequest]
  simp

/-- C1: for every command code and stored sample count, `sendCommand(cmd)` hands the
transport exactly the 8 bytes header, command, sample count, each most significant
byte first, on the data socket, in one send; and it returns true exactly when that
send returns 8. -/
theorem sendCommand_wire_format (H : Header) (cmd : Nat) (s : FTSensor) (w : Net) :
    let bytes : List Nat :=
      [H.command_header / 256 % 256, H.command_header % 256,
       cmd / 256 % 256, cmd % 256,
       s.cmd_.sample_count / 16777216 % 256, s.cmd_.sample_count / 65536 % 256,
       s.cmd_.sample_count / 256 % 256, s.cmd_.sample_count % 256]
    bytes.length = 8
    ∧ (FTSensor.sendCommand H cmd s w).2.2.calls = w.calls ++ [Call.send s.socketHandle_ bytes]
    ∧ ((FTSensor.sendCommand H cmd s w).1 = true ↔ (w.send s.socketHandle_ bytes).1 = 8) := by
  intro bytes
  refine ⟨rfl, ?_, ?_⟩
  · simp only [FTSensor.sendCommand, requestBytes_eq, Net.send, Net.log, bytes]
  · simp only [FTSensor.sendCommand, requestBytes_eq, decide_eq_true_eq]
    exact toSizeT_send_eq w s.socketHandle_ bytes rfl

theorem byteAt_lt (buf : List Nat) (off : Nat) : byteAt buf off < 256 :=
  Nat.mod_lt _ (by decide)

/-- Whatever the host byte order, `ntohl` of a loaded word is the big-endian value of
the four bytes. -/
theorem ntohl_load32 (le : Bool) (buf : List Nat) (off : Nat) :
    ntohl le (load32 le buf off) =
      byteAt buf off * 16777216 + byteAt buf (off + 1) * 65536 + byteAt buf (off + 2) * 256
        + byteAt buf (off + 3) := by
  have h0 := byteAt_lt buf off
  have h1 := byteAt_lt buf (off + 1)
  have h2 := byteAt_lt buf (off + 2)
  have h3 := byteAt_lt buf (off + 3)
  cases le
  · simp only [ntohl, htonl, load32, Bool.false_eq_true, if_false]
    omega
  · simp only [ntohl, htonl, load32, if_true, bswap32_mod]
    have e : byteAt buf off + byteAt buf (off + 1) * 256 + byteAt buf (off + 2) * 65536
        + byteAt buf (off + 3) * 16777216
        = byteAt buf (off + 3) * 16777216 + byteAt buf (off + 2) * 65536
          + byteAt buf (off + 1) * 256 + byteAt buf off := by omega
    rw [e]
    have hb := bytes32 _ _ _ _ h3 h2 h1 h0
    simp only [hb.1, hb.2.1, hb.2.2.1, hb.2.2.2]

theorem load32_lt (le : Bool) (buf : List Nat) (off : Nat) : load32 le buf off < 4294967296 := by
  have h0 := byteAt_lt buf off
  have h1 := byteAt_lt buf (off + 1)
  have h2 := byteAt_lt buf (off + 2)
  have h3 := byteAt_lt buf (off + 3)
  cases le <;> simp only [load32, Bool.false_eq_true, if_false, if_true] <;> omega

theorem toUInt32_toInt32 (x : Nat) (h : x < 4294967296) : toUInt32 (toInt32 x) = x := by
  unfold toUInt32 toInt32
  split <;> omega

/-- The signed decode of `getResponse` is the two's complement reading of the
big-endian value of the four bytes. -/
theorem ntohl_loadInt32 (le : Bool) (buf : List Nat) (off : Nat) :
    toInt32 (ntohl le (toUInt32 (loadInt32 le buf off))) =
      toInt32 (byteAt buf off * 16777216 + byteAt buf (off + 1) * 65536
        + byteAt buf (off + 2) * 256 + byteAt buf (off + 3)) := by
  rw [loadInt32, toUInt32_toInt32 _ (load32_lt le buf off), ntohl_load32]

theorem writeAt_zero (buf bytes : List Nat) :
    writeAt buf 0 bytes = bytes ++ buf.drop bytes.length := by
  simp [writeAt]

theorem specBE32_value (x : Nat) (h : x < 4294967296) :
    (x / 16777216 % 256 % 256) * 16777216 + (x / 65536 % 256 % 256) * 65536
      + (x / 256 % 256 % 256) * 256 + x % 256 % 256 = x := by
  omega

theorem specBE32s_value (v : Int) (h1 : -2147483648 ≤ v) (h2 : v < 2147483648) :
    toInt32 (((v % 4294967296).toNat / 16777216 % 256 % 256) * 16777216
      + ((v % 4294967296).toNat / 65536 % 256 % 256) * 65536
      + ((v % 4294967296).toNat / 256 % 256 % 256) * 256
      + (v % 4294967296).toNat % 256 % 256) = v := by
  have hx : (v % 4294967296).toNat < 4294967296 := by omega
  rw [specBE32_value _ hx]
  unfold toInt32
  split <;> omega

theorem byteAt_cons_zero (a : Nat) (l : List Nat) : byteAt (a :: l) 0 = a % 256 := rfl

theorem byteAt_cons_succ (a : Nat) (l : List Nat) (n : Nat) :
    byteAt (a :: l) (n + 1) = byteAt l n := rfl

theorem recv_wire (r : Response) (w : Net) (h : Int)
    (hrecv : w.recvOut w.calls.length = RecvOutcome.got (specResponseWire r)) :
    w.recv h sizeofResponse = (36, specResponseWire r, w.log (Call.recv h sizeofResponse)) := by
  simp only [Net.recv, hrecv]
  rfl

/-- C2: when the datagram received is the 36-byte big-endian serialisation of a record
whose fields fit their wire types, `getResponse` stores exactly the nine field values,
negative ones included, on a host of either byte order. -/
theorem getResponse_round_trip (r : Response) (hr : r.fits) (s : FTSensor) (w : Net)
    (hrecv : w.recvOut w.calls.length = RecvOutcome.got (specResponseWire r)) :
    (FTSensor.getResponse s w).2.1.resp_.rdt_sequence = r.rdt_sequence
    ∧ (FTSensor.getResponse s w).2.1.resp_.ft_sequence = r.ft_sequence
    ∧ (FTSensor.getResponse s w).2.1.resp_.status = r.status
    ∧ (FTSensor.getResponse s w).2.1.resp_.Fx = r.Fx
    ∧ (FTSensor.getResponse s w).2.1.resp_.Fy = r.Fy
    ∧ (FTSensor.getResponse s w).2.1.resp_.Fz = r.Fz
    ∧ (FTSensor.getResponse s w).2.1.resp_.Tx = r.Tx
    ∧ (FTSensor.getResponse s w).2.1.resp_.Ty = r.Ty
    ∧ (FTSensor.getResponse s w).2.1.resp_.Tz = r.Tz := by
  obtain ⟨h1, h2, h3, h4, h5, h6, h7, h8, h9⟩ := hr
  simp only [FTSensor.getResponse, recv_wire r w s.socketHandle_ hrecv, ntohl_load32,
    ntohl_loadInt32, writeAt_zero, specResponseWire, specBE32, specBE32s, List.cons_append,
    List.nil_append, List.append_assoc, Nat.reduceAdd, Nat.reduceMul, byteAt_cons_succ,
    byteAt_cons_zero]
  exact ⟨specBE32_value _ h1, specBE32_value _ h2, specBE32_value _ h3,
    specBE32s_value _ h4.1 h4.2, specBE32s_value _ h5.1 h5.2, specBE32s_value _ h6.1 h6.2,
    specBE32s_value _ h7.1 h7.2, specBE32s_value _ h8.1 h8.2, specBE32s_value _ h9.1 h9.2⟩

/-- C3: `getResponse` makes exactly one receive of up to 36 bytes on the data socket and
returns true exactly when that receive returned 36; a failed or timed-out receive
gives false, and a receive that delivered bytes gives true only for a datagram of at
least 36 bytes, of which 36 are returned. -/
theorem getResponse_true_iff (s : FTSensor) (w : Net) :
    ((FTSensor.getResponse s w).1 = true ↔ (w.recv s.socketHandle_ 36).1 = 36)
    ∧ (FTSensor.getResponse s w).2.2.calls = w.calls ++ [Call.recv s.socketHandle_ 36]
    ∧ (∀ code, w.recvOut w.calls.length = RecvOutcome.failed code →
        (FTSensor.getResponse s w).1 = false)
    ∧ (∀ data, w.recvOut w.calls.length = RecvOutcome.got data →
        ((FTSensor.getResponse s w).1 = true ↔ 36 ≤ data.length)) := by
  refine ⟨?_, ?_, ?_, ?_⟩
  · simp only [FTSensor.getResponse, decide_eq_true_eq, RDT_RECORD_SIZE, sizeofResponse]
  · simp only [FTSensor.getResponse, Net.recv, sizeofResponse]
    cases w.recvOut w.calls.length <;> rfl
  · intro code hc
    simp only [FTSensor.getResponse, Net.recv, hc, RDT_RECORD_SIZE, decide_eq_false_iff_not]
    have := code.isLt
    omega
  · intro data hd
    simp only [FTSensor.getResponse, Net.recv, hd, RDT_RECORD_SIZE, decide_eq_true_eq,
      sizeofResponse, List.length_take]
    omega

/-- Witness of C2: the sample record has `Fx = -1`, its wire form holds `FF FF FF FF`
at offset 12, and `getResponse` decodes it back. -/
theorem getResponse_round_trip_witness :
    sampleResponse.fits
    ∧ ((specResponseWire sampleResponse).drop 12).take 4 = [255, 255, 255, 255]
    ∧ (FTSensor.getResponse runningSensor
        (netWith (fun _ => RecvOutcome.got (specResponseWire sampleResponse)))).2.1.resp_.Fx
        = -1 :=
  ⟨by decide, by decide,
    (getResponse_round_trip sampleResponse (by decide) runningSensor
      (netWith (fun _ => RecvOutcome.got (specResponseWire sampleResponse))) rfl).2.2.2.1⟩

theorem sendCommand_keeps (H : Header) (cmd : Nat) (s : FTSensor) (w : Net) :
    (FTSensor.sendCommand H cmd s w).2.1.cmd_ = s.cmd_
    ∧ (FTSensor.sendCommand H cmd s w).2.1.initialized_ = s.initialized_
    ∧ (FTSensor.sendCommand H cmd s w).2.1.socketHandle_ = s.socketHandle_ :=
  ⟨rfl, rfl, rfl⟩

theorem getResponse_keeps (s : FTSensor) (w : Net) :
    (FTSensor.getResponse s w).2.1.cmd_ = s.cmd_
    ∧ (FTSensor.getResponse s w).2.1.initialized_ = s.initialized_
    ∧ (FTSensor.getResponse s w).2.1.socketHandle_ = s.socketHandle_ :=
  ⟨rfl, rfl, rfl⟩

theorem getResponse_calls (s : FTSensor) (w : Net) :
    (FTSensor.getResponse s w).2.2.calls = w.calls ++ [Call.recv s.socketHandle_ 36] := by
  simp only [FTSensor.getResponse, Net.recv, sizeofResponse]
  cases w.recvOut w.calls.length <;> rfl

theorem sendCommand_calls (H : Header) (cmd : Nat) (s : FTSensor) (w : Net) :
    (FTSensor.sendCommand H cmd s w).2.2.calls =
      w.calls ++ [Call.send s.socketHandle_
        [H.command_header / 256 % 256, H.command_header % 256,
         cmd / 256 % 256, cmd % 256,
         s.cmd_.sample_count / 16777216 % 256, s.cmd_.sample_count / 65536 % 256,
         s.cmd_.sample_count / 256 % 256, s.cmd_.sample_count % 256]] := by
  simp only [FTSensor.sendCommand, requestBytes_eq, Net.send, Net.log]

/-- C8: on an initialized sensor one `doComm` makes, after the calls made before, one
send of the stored Command on the data socket when `sample_count != 0` and none when
it is 0, then in both cases, whatever the send returned, exactly one receive of up
to 36 bytes on the data socket; and whatever the receive returns, the stored command
code, sample count and `initialized_` are unchanged. -/
theorem doComm_one_poll (H : Header) (s : FTSensor) (w : Net) (hinit : s.initialized_ = true) :
    (s.cmd_.sample_count ≠ 0 →
      (FTSensor.doComm H s w).2.calls =
        w.calls ++ [Call.send s.socketHandle_
          [H.command_header / 256 % 256, H.command_header % 256,
           s.cmd_.command / 256 % 256, s.cmd_.command % 256,
           s.cmd_.sample_count / 16777216 % 256, s.cmd_.sample_count / 65536 % 256,
           s.cmd_.sample_count / 256 % 256, s.cmd_.sample_count % 256],
          Call.recv s.socketHandle_ 36])
    ∧ (s.cmd_.sample_count = 0 →
      (FTSensor.doComm H s w).2.calls = w.calls ++ [Call.recv s.socketHandle_ 36])
    ∧ (FTSensor.doComm H s w).1.cmd_ = s.cmd_
    ∧ (FTSensor.doComm H s w).1.initialized_ = s.initialized_ := by
  refine ⟨?_, ?_, ?_, ?_⟩
  · intro hc
    simp only [FTSensor.doComm, FTSensor.isInitialized, hinit, if_true, hc, ne_eq,
      not_false_eq_true, FTSensor.sendCommand0, getResponse_calls, sendCommand_calls,
      (sendCommand_keeps H s.cmd_.command s w).2.2, List.append_assoc, List.singleton_append]
  · intro hc
    simp only [FTSensor.doComm, FTSensor.isInitialized, hinit, if_true, hc, ne_eq,
      not_true_eq_false, if_false, getResponse_calls]
  · unfold FTSensor.doComm
    split
    · split <;> rfl
    · rfl
  · unfold FTSensor.doComm
    split
    · split <;> rfl
    · rfl

/-- Witness of C8: the running sample sensor polls with one send and one receive when
the receive times out. -/
theorem doComm_one_poll_witness :
    runningSensor.initialized_ = true
    ∧ (FTSensor.doComm sampleHeader runningSensor
        (netWith (fun _ => RecvOutcome.failed 10))).2.calls =
        [Call.send 4 [18, 52, 0, 2, 0, 0, 0, 1], Call.recv 4 36]
    ∧ (FTSensor.doComm sampleHeader runningSensor
        (netWith (fun _ => RecvOutcome.failed 10))).1.cmd_ = { command := 2, sample_count := 1 } :=
  ⟨rfl,
    (doComm_one_poll sampleHeader runningSensor (netWith (fun _ => RecvOutcome.failed 10)) rfl).1
      (by decide),
    (doComm_one_poll sampleHeader runningSensor (netWith (fun _ => RecvOutcome.failed 10)) rfl).2.2.1⟩

end ati

namespace ati

/-! ## Theorems: the HTTP channel -/

theorem gaugeQuery_none (m : FTSensor.GaugeMap) (h : ∃ e ∈ m, 6 ≤ e.1) :
    ∀ (first : Bool) (acc : List Char), FTSensor.gaugeQuery m first acc = none := by
  induction m with
  | nil => obtain ⟨e, he, _⟩ := h; cases he
  | cons hd tl ih =>
    intro first acc
    obtain ⟨k, v⟩ := hd
    by_cases hk : k < 6
    · have htl : ∃ e ∈ tl, 6 ≤ e.1 := by
        obtain ⟨e, he, h6⟩ := h
        rcases List.mem_cons.mp he with rfl | he'
        · exact absurd hk (by simpa using h6)
        · exact ⟨e, he', h6⟩
      simp only [FTSensor.gaugeQuery, hk, if_true]
      exact ih htl _ _
    · simp only [FTSensor.gaugeQuery, hk, if_false]

theorem mapAssign_mem (key : Nat) (value : Int) (m : FTSensor.GaugeMap) :
    (key, value) ∈ FTSensor.mapAssign key value m := by
  induction m with
  | nil => simp [FTSensor.mapAssign]
  | cons hd tl ih =>
    obtain ⟨k, v⟩ := hd
    simp only [FTSensor.mapAssign]
    split
    · simp
    · split
      · simp
      · exact List.mem_cons_of_mem _ ih

theorem mapAssign_keeps (key : Nat) (value : Int) (m : FTSensor.GaugeMap) (k : Nat)
    (h : ∃ v, (k, v) ∈ m) : ∃ v, (k, v) ∈ FTSensor.mapAssign key value m := by
  induction m with
  | nil => obtain ⟨v, hv⟩ := h; cases hv
  | cons hd tl ih =>
    obtain ⟨k0, v0⟩ := hd
    obtain ⟨v, hv⟩ := h
    simp only [FTSensor.mapAssign]
    split
    · exact ⟨v, List.mem_cons_of_mem _ hv⟩
    · split
      · rename_i hkey
        rcases List.mem_cons.mp hv with heq | hin
        · have hk : k = k0 := congrArg Prod.fst heq
          exact ⟨value, by rw [hk, hkey]; exact List.mem_cons_self _ _⟩
        · exact ⟨v, List.mem_cons_of_mem _ hin⟩
      · rcases List.mem_cons.mp hv with heq | hin
        · exact ⟨v, by rw [heq]; exact List.mem_cons_self _ _⟩
        · obtain ⟨v', hv'⟩ := ih ⟨v, hin⟩
          exact ⟨v', List.mem_cons_of_mem _ hv'⟩

theorem vectorToMap_keeps (vect : List Int) :
    ∀ (i : Nat) (m : FTSensor.GaugeMap) (k : Nat), (∃ v, (k, v) ∈ m) →
      ∃ v, (k, v) ∈ FTSensor.vectorToMap vect i m := by
  induction vect with
  | nil => intro i m k h; exact h
  | cons x rest ih =>
    intro i m k h
    exact ih (i + 1) _ k (mapAssign_keeps _ _ m k h)

theorem vectorToMap_has_index (vect : List Int) :
    ∀ (i : Nat) (m : FTSensor.GaugeMap) (j : Nat), j < vect.length →
      ∃ v, ((i + j) % 4294967296, v) ∈ FTSensor.vectorToMap vect i m := by
  induction vect with
  | nil => intro i m j hj; cases hj
  | cons x rest ih =>
    intro i m j hj
    cases j with
    | zero =>
      exact vectorToMap_keeps rest (i + 1) _ _ ⟨x, mapAssign_mem _ _ m⟩
    | succ j =>
      have := ih (i + 1) (FTSensor.mapAssign (i % 4294967296) x m) j (by simpa using hj)
      simpa [FTSensor.vectorToMap, Nat.add_assoc, Nat.add_comm 1 j] using this

/-- C4: a gauge map with at least one index that is not below 6, a vector of more than
6 elements, and a single index that is not below 6 all make `setGaugeBias` return
false with the object and the network unchanged: no call is made, so nothing is sent
or received. -/
theorem setGaugeBias_rejects_out_of_range (s : FTSensor) (w : Net) :
    (∀ m : FTSensor.GaugeMap, (∃ e ∈ m, 6 ≤ e.1) →
      FTSensor.setGaugeBias m s w = some (false, s, w))
    ∧ (∀ gauge_vect : List Int, 6 < gauge_vect.length →
      FTSensor.setGaugeBiasVector gauge_vect s w = some (false, s, w))
    ∧ (∀ (gauge_idx : Nat) (gauge_bias : Int), 6 ≤ gauge_idx →
      FTSensor.setGaugeBiasIndex gauge_idx gauge_bias s w = some (false, s, w)) := by
  have hmap : ∀ m : FTSensor.GaugeMap, (∃ e ∈ m, 6 ≤ e.1) →
      FTSensor.setGaugeBias m s w = some (false, s, w) := by
    intro m hm
    simp only [FTSensor.setGaugeBias, gaugeQuery_none m hm]
  refine ⟨hmap, ?_, ?_⟩
  · intro gauge_vect hlen
    obtain ⟨v, hv⟩ := vectorToMap_has_index gauge_vect 0 [] 6 hlen
    exact hmap _ ⟨((0 + 6) % 4294967296, v), hv, by norm_num⟩
  · intro gauge_idx gauge_bias hidx
    exact hmap _ ⟨(gauge_idx, gauge_bias), mapAssign_mem _ _ [], hidx⟩

/-- Witness of C4: a map with the valid indices 0 and 5 and the invalid index 6, a
vector of seven biases, and the single index 6 are rejected on the running sample
sensor, and the network has made no call. -/
theorem setGaugeBias_rejects_out_of_range_witness :
    FTSensor.setGaugeBias [(0, 10), (5, -3), (6, 1)] runningSensor (netWith (fun _ => RecvOutcome.got []))
      = some (false, runningSensor, netWith (fun _ => RecvOutcome.got []))
    ∧ FTSensor.setGaugeBiasVector [1, 2, 3, 4, 5, 6, 7] runningSensor
        (netWith (fun _ => RecvOutcome.got []))
      = some (false, runningSensor, netWith (fun _ => RecvOutcome.got []))
    ∧ FTSensor.setGaugeBiasIndex 6 0 runningSensor (netWith (fun _ => RecvOutcome.got []))
      = some (false, runningSensor, netWith (fun _ => RecvOutcome.got []))
    ∧ (netWith (fun _ => RecvOutcome.got [])).calls = [] :=
  ⟨(setGaugeBias_rejects_out_of_range runningSensor (netWith (fun _ => RecvOutcome.got []))).1
      [(0, 10), (5, -3), (6, 1)] ⟨(6, 1), by decide, by decide⟩,
    (setGaugeBias_rejects_out_of_range runningSensor (netWith (fun _ => RecvOutcome.got []))).2.1
      [1, 2, 3, 4, 5, 6, 7] (by decide),
    (setGaugeBias_rejects_out_of_range runningSensor (netWith (fun _ => RecvOutcome.got []))).2.2
      6 0 (by decide),
    rfl⟩

theorem log_eq_logAll (w : Net) (c : Call) : w.log c = w.logAll [c] := rfl

theorem logAll_logAll (w : Net) (a b : List Call) : (w.logAll a).logAll b = w.logAll (a ++ b) := by
  simp [Net.logAll, List.append_assoc]

theorem writeAt_of_le (buf : List Nat) (pos : Nat) (bytes : List Nat) (h : pos ≤ buf.length) :
    writeAt buf pos bytes = buf.take pos ++ bytes ++ buf.drop (pos + bytes.length) := by
  simp [writeAt, Nat.sub_eq_zero_of_le h]

theorem writeAt_nil (buf : List Nat) (pos : Nat) (h : pos ≤ buf.length) :
    writeAt buf pos [] = buf := by
  rw [writeAt_of_le buf pos [] h]
  simp

theorem length_writeAt (buf : List Nat) (pos : Nat) (bytes : List Nat) (h : pos ≤ buf.length) :
    pos + bytes.length ≤ (writeAt buf pos bytes).length := by
  rw [writeAt_of_le buf pos bytes h]
  simp only [List.length_append, List.length_take, List.length_drop]
  omega

theorem writeAt_writeAt (buf : List Nat) (pos : Nat) (a b : List Nat) (h : pos ≤ buf.length) :
    writeAt (writeAt buf pos a) (pos + a.length) b = writeAt buf pos (a ++ b) := by
  rw [writeAt_of_le _ _ b (length_writeAt buf pos a h), writeAt_of_le buf pos a h,
    writeAt_of_le buf pos (a ++ b) h]
  have hl : (List.take pos buf ++ a).length = pos + a.length := by
    simp only [List.length_append, List.length_take]; omega
  have e1 : List.take (pos + a.length) (List.take pos buf ++ a ++ List.drop (pos + a.length) buf)
      = List.take pos buf ++ a := List.take_left' hl
  have e2 : List.drop (pos + a.length + b.length)
      (List.take pos buf ++ a ++ List.drop (pos + a.length) buf)
      = List.drop (pos + (a ++ b).length) buf := by
    rw [show pos + a.length + b.length = (List.take pos buf ++ a).length + b.length by rw [hl],
      List.drop_append, List.drop_drop, List.length_append]
    congr 1; omega
  rw [e1, e2]
  simp only [List.append_assoc]

theorem recv_got (w : Net) (h : Int) (c : List Nat)
    (hr : w.recvOut w.calls.length = RecvOutcome.got c) (hc : c.length ≤ 4) :
    w.recv h 4 = (((c.length : Nat) : Int), c, w.logAll [Call.recv h 4]) := by
  simp only [Net.recv, hr, List.take_of_length_le hc]
  rfl

theorem toUInt32_small (p : Nat) (h : p < 65536) : toUInt32 (p : Int) < FTSensor.maxSize := by
  simp only [toUInt32, FTSensor.maxSize]
  omega

/-- The receive loop on a device that delivers `cs` and then ends the stream: every
chunk is stored in order from `pos` on, `posBuff` grows by the total length, and the
calls made are one receive for each chunk and one for the end of the stream. -/
theorem recvLoop_delivers (cs : List (List Nat)) :
    ∀ (fuel : Nat) (s : FTSensor) (w : Net) (pos : Nat),
      delivers w.recvOut w.calls.length cs = true → pos + cs.flatten.length < 65536 →
      cs.length < fuel → pos ≤ s.xml_c_.length →
      FTSensor.recvLoop fuel s w (pos : Int) =
        some ({ s with xml_c_ := writeAt s.xml_c_ pos cs.flatten },
          w.logAll (List.replicate (cs.length + 1) (Call.recv s.socketHTTPHandle_ 4)),
          ((pos + cs.flatten.length : Nat) : Int)) := by
  induction cs with
  | nil =>
    intro fuel s w pos hd hpos hfuel hlen
    obtain ⟨f, rfl⟩ : ∃ f, fuel = f + 1 := ⟨fuel - 1, by simp at hfuel; omega⟩
    have hr : w.recvOut w.calls.length = RecvOutcome.got [] := by
      simpa [delivers] using hd
    have hu := toUInt32_small pos (by simp at hpos; omega)
    simp only [FTSensor.recvLoop, hu, if_true, FTSensor.chunkSize,
      recv_got w s.socketHTTPHandle_ [] hr (by simp), List.length_nil, Nat.cast_zero,
      le_refl, Int.toNat_ofNat, writeAt_nil _ _ hlen, List.flatten_nil, add_zero,
      List.replicate_one]
    rfl
  | cons c cs ih =>
    intro fuel s w pos hd hpos hfuel hlen
    obtain ⟨f, rfl⟩ : ∃ f, fuel = f + 1 := ⟨fuel - 1, by simp at hfuel; omega⟩
    simp only [delivers, Bool.and_eq_true, beq_iff_eq, decide_eq_true_eq] at hd
    obtain ⟨⟨⟨hr, hc1⟩, hc4⟩, hrest⟩ := hd
    simp only [List.flatten_cons, List.length_append] at hpos
    have hu := toUInt32_small pos (by omega)
    have hpos' : ¬ ((c.length : Int) ≤ 0) := by omega
    have hih := ih f { s with xml_c_ := writeAt s.xml_c_ pos c }
      (w.logAll [Call.recv s.socketHTTPHandle_ 4]) (pos + c.length)
      (by simpa [Net.logAll] using hrest) (by omega) (by simp at hfuel; omega)
      (length_writeAt _ _ _ hlen)
    simp only [FTSensor.recvLoop, hu, if_true, FTSensor.chunkSize,
      recv_got w s.socketHTTPHandle_ c hr hc4, hpos', if_false, Int.toNat_ofNat]
    rw [show ((pos : Int) + (c.length : Int)) = ((pos + c.length : Nat) : Int) by push_cast; rfl,
      hih]
    simp only [writeAt_writeAt _ _ _ _ hlen, logAll_logAll, List.flatten_cons, List.length_cons,
      List.length_append, Nat.add_assoc]
    rfl


theorem recv_ret_le (w : Net) (h : Int) (maxLen : Nat) : (w.recv h maxLen).1 ≤ maxLen := by
  unfold Net.recv
  cases w.recvOut w.calls.length with
  | failed code => simp only []; omega
  | got data => simp only [List.length_take]; omega

/-- The receive loop always returns within `maxSize` iterations. -/
theorem recvLoop_returns_of_fuel (fuel : Nat) :
    ∀ (s : FTSensor) (w : Net) (posBuff : Int), 65536 - toUInt32 posBuff ≤ fuel →
      (FTSensor.recvLoop fuel s w posBuff).isSome = true := by
  induction fuel with
  | zero =>
    intro s w posBuff h
    have : ¬ toUInt32 posBuff < FTSensor.maxSize := by
      simp only [FTSensor.maxSize]; omega
    simp only [FTSensor.recvLoop, this, if_false, Option.isSome_some]
  | succ f ih =>
    intro s w posBuff h
    simp only [FTSensor.recvLoop]
    split
    · rename_i hlt
      split
      · rfl
      · rename_i hpos
        apply ih
        have h4 := recv_ret_le w s.socketHTTPHandle_ FTSensor.chunkSize
        simp only [FTSensor.maxSize, FTSensor.chunkSize, toUInt32] at *
        omega
    · rfl

theorem recvLoop_returns (s : FTSensor) (w : Net) (posBuff : Int) :
    (FTSensor.recvLoop FTSensor.maxSize s w posBuff).isSome = true :=
  recvLoop_returns_of_fuel _ s w posBuff (by simp [FTSensor.maxSize])

theorem strncmpEq_of_take (buf : List Nat) (h : buf.take 18 = awaitedBytes) :
    strncmpEq buf awaitedBytes 18 = true := by
  rw [← List.take_append_drop 18 buf, h]
  rfl

theorem take_of_strncmpEq (n : Nat) :
    ∀ (a b : List Nat), (∀ x ∈ a.take n, x < 256) → (∀ y ∈ b.take n, 0 < y ∧ y < 256) →
      n ≤ b.length → strncmpEq a b n = true → a.take n = b.take n := by
  induction n with
  | zero => intro a b _ _ _ _; rfl
  | succ n ih =>
    intro a b ha hb hlen h
    cases b with
    | nil => simp at hlen
    | cons y b' =>
      have hy := hb y (by simp)
      cases a with
      | nil =>
        simp only [strncmpEq, List.headD_nil, List.headD_cons] at h
        have : 0 % 256 ≠ y % 256 := by omega
        simp [this] at h
      | cons x a' =>
        have hx := ha x (by simp)
        simp only [strncmpEq, List.headD_cons, List.tail_cons] at h
        have hxy : x = y := by
          by_contra hne
          have : x % 256 ≠ y % 256 := by omega
          simp [this] at h
        subst hxy
        have hx0 : ¬ (x % 256 = 0) := by omega
        simp only [ne_eq, not_true_eq_false, if_false, hx0] at h
        have := ih a' b' (fun z hz => ha z (by simp [hz]))
          (fun z hz => hb z (by simp [hz])) (by simpa using hlen) h
        simp [this]

theorem delivers_length (cs : List (List Nat)) :
    ∀ (recvOut : Nat → RecvOutcome) (n : Nat), delivers recvOut n cs = true →
      cs.length ≤ cs.flatten.length := by
  induction cs with
  | nil => intro _ _ _; simp
  | cons c cs ih =>
    intro recvOut n hd
    simp only [delivers, Bool.and_eq_true, beq_iff_eq, decide_eq_true_eq] at hd
    have := ih recvOut (n + 1) hd.2
    simp only [List.length_cons, List.flatten_cons, List.length_append]
    omega

/-- What `sendTCPrequest` does for a non-empty request that the transport accepts, on
a device that delivers the answer `cs` and ends the stream. -/
theorem sendTCPrequest_delivered (request_cmd : List Char) (s : FTSensor) (w : Net) (n : Nat)
    (cs : List (List Nat)) (hcmd : request_cmd ≠ [])
    (hsend : w.sendOut w.calls.length = SendOutcome.wrote n)
    (hd : delivers w.recvOut (w.calls.length + 1) cs = true)
    (hlen : cs.flatten.length < 65536) :
    FTSensor.sendTCPrequest request_cmd s w =
      some (decide (4 < cs.flatten.length)
          && strncmpEq (writeAt s.xml_c_ 0 cs.flatten) awaitedBytes 18,
        { s with xml_c_ := writeAt s.xml_c_ 0 cs.flatten },
        w.logAll (Call.send s.socketHTTPHandle_ (bytesOf (FTSensor.httpRequest10 request_cmd s.ip))
          :: List.replicate (cs.length + 1) (Call.recv s.socketHTTPHandle_ 4))) := by
  have hsend' : ¬ ((w.send s.socketHTTPHandle_
      (bytesOf (FTSensor.httpRequest10 request_cmd s.getIP))).1 < 0) := by
    simp only [Net.send, hsend]; omega
  have hcs : cs.length < FTSensor.maxSize := by
    have := delivers_length cs w.recvOut (w.calls.length + 1) hd
    simp only [FTSensor.maxSize]; omega
  have hloop := recvLoop_delivers cs FTSensor.maxSize s
    (w.send s.socketHTTPHandle_ (bytesOf (FTSensor.httpRequest10 request_cmd s.getIP))).2 0
    (by simpa [Net.send, Net.log] using hd) (by simpa using hlen) hcs (Nat.zero_le _)
  simp only [Nat.cast_zero, Nat.zero_add] at hloop
  simp only [FTSensor.sendTCPrequest, hcmd, if_false, hsend', hloop]
  have hw : (w.send s.socketHTTPHandle_
      (bytesOf (FTSensor.httpRequest10 request_cmd s.getIP))).2.logAll
        (List.replicate (cs.length + 1) (Call.recv s.socketHTTPHandle_ 4))
      = w.logAll (Call.send s.socketHTTPHandle_
          (bytesOf (FTSensor.httpRequest10 request_cmd s.ip))
          :: List.replicate (cs.length + 1) (Call.recv s.socketHTTPHandle_ 4)) := by
    simp [Net.send, Net.log, Net.logAll, FTSensor.getIP]
  rw [hw]
  by_cases h4 : 4 < cs.flatten.length
  · have h4' : ((cs.flatten.length : Nat) : Int) > 4 := by omega
    simp only [h4', if_true, h4, decide_True, Bool.true_and]
    simp only [awaitedBytes]
    cases hs : strncmpEq (writeAt s.xml_c_ 0 cs.flatten) (bytesOf FTSensor.awaited_response) 18 <;>
      simp
  · have h4' : ¬ (((cs.flatten.length : Nat) : Int) > 4) := by omega
    simp only [h4', if_false, h4, decide_False, Bool.false_and]


theorem gaugeQuery_some (m : FTSensor.GaugeMap) (h : ∀ e ∈ m, e.1 < 6) :
    ∀ (first : Bool) (acc : List Char), ∃ q, FTSensor.gaugeQuery m first acc = some q := by
  induction m with
  | nil => intro first acc; exact ⟨acc, rfl⟩
  | cons hd tl ih =>
    intro first acc
    obtain ⟨k, v⟩ := hd
    have hk : k < 6 := h (k, v) (List.mem_cons_self _ _)
    simp only [FTSensor.gaugeQuery, hk, if_true]
    exact ih (fun e he => h e (List.mem_cons_of_mem _ he)) _ _

theorem awaitedBytes_bounds : ∀ y ∈ awaitedBytes.take 18, 0 < y ∧ y < 256 := by
  decide

theorem take18_append (r rest : List Nat) (h : 18 ≤ r.length) :
    (r ++ rest).take 18 = r.take 18 :=
  List.take_append_of_le_length h

theorem length_of_take18 (r : List Nat) (h : r.take 18 = awaitedBytes) : 18 ≤ r.length := by
  have := congrArg List.length h
  simp only [List.length_take] at this
  have h18 : awaitedBytes.length = 18 := rfl
  omega

/-- The member function `sendTCPrequest` always returns: the bound on the iterations of
its receive loop is never reached. -/
theorem sendTCPrequest_returns (request_cmd : List Char) (s : FTSensor) (w : Net) :
    (FTSensor.sendTCPrequest request_cmd s w).isSome = true := by
  unfold FTSensor.sendTCPrequest
  split
  · rfl
  · simp only []
    split
    · rfl
    · have h := recvLoop_returns s
        (w.send s.socketHTTPHandle_ (bytesOf (FTSensor.httpRequest10 request_cmd s.getIP))).2 0
      split
      · rename_i hnone
        rw [hnone] at h
        cases h
      · split
        · split <;> rfl
        · rfl

/-- C5 (amended): a rate outside [1, 7000] makes `setRDTOutputRate` return false with
the object (the stored rate included) and the network unchanged, so nothing is sent
or received.  For a rate in [1, 7000], when the transport accepts the send and the
device delivers an answer beginning `HTTP/1.0 302 Found` and ends the stream, the
call sends the request for the path `/comm.cgi?comrdtrate=` followed by the rate in
decimal, returns true, and the stored rate becomes the rate. -/
theorem setRDTOutputRate_range (s : FTSensor) (w : Net) :
    (∀ rate : Nat, ¬ (1 ≤ rate ∧ rate ≤ 7000) →
      FTSensor.setRDTOutputRate rate s w = some (false, s, w))
    ∧ (∀ (rate n : Nat) (cs : List (List Nat)), 1 ≤ rate → rate ≤ 7000 →
      w.sendOut w.calls.length = SendOutcome.wrote n →
      delivers w.recvOut (w.calls.length + 1) cs = true →
      cs.flatten.length < 65536 →
      cs.flatten.take 18 = awaitedBytes →
      FTSensor.setRDTOutputRate rate s w =
        some (true,
          { s with xml_c_ := writeAt s.xml_c_ 0 cs.flatten, rdt_rate_ := (rate : Int) },
          w.logAll (Call.send s.socketHTTPHandle_
              (bytesOf (FTSensor.httpRequest10
                ("/comm.cgi?comrdtrate=".toList ++ (Nat.repr rate).toList) s.ip))
            :: List.replicate (cs.length + 1) (Call.recv s.socketHTTPHandle_ 4)))) := by
  constructor
  · intro rate hrate
    have : ¬ (rate > 0 ∧ rate ≤ 7000) := by omega
    simp only [FTSensor.setRDTOutputRate, this, if_false]
  · intro rate n cs h1 h2 hsend hd hlen htake
    have hr : rate > 0 ∧ rate ≤ 7000 := ⟨by omega, h2⟩
    have hcmd : "/comm.cgi?comrdtrate=".toList ++ showNat rate ≠ [] := by simp
    have hmain := sendTCPrequest_delivered _ s w n cs hcmd hsend hd hlen
    have h18 := length_of_take18 _ htake
    have h4 : 4 < cs.flatten.length := by omega
    have hs : strncmpEq (writeAt s.xml_c_ 0 cs.flatten) awaitedBytes 18 = true := by
      rw [writeAt_zero]
      exact strncmpEq_of_take _ (by rw [take18_append _ _ h18]; exact htake)
    simp only [h4, decide_True, hs, Bool.and_self, showNat] at hmain
    simp only [FTSensor.setRDTOutputRate, hr, and_self, if_true, showNat, hmain]

/-- Counterexample to C5 as stated: the rate 7000 is in range, the send is accepted and
the device answers with the status 302, `HTTP/1.0 302 Moved Temporarily`, yet
`setRDTOutputRate` returns false and the stored rate stays 0. -/
theorem setRDTOutputRate_rejects_302_moved :
    (netWith (streamAnswers movedBody)).sendOut 0 = SendOutcome.wrote 65536
    ∧ movedBody.take 12 = bytesOf "HTTP/1.0 302".toList
    ∧ runningSensor.rdt_rate_ = 0
    ∧ (FTSensor.setRDTOutputRate 7000 runningSensor
        (netWith (streamAnswers movedBody))).map (fun r => (r.1, r.2.1.rdt_rate_))
        = some (false, 0) := by
  decide

/-- Witness of C5 (amended): on the running sample sensor the rates 0 and 7001 are
rejected without any call, and the boundary rates 1 and 7000, answered with
`HTTP/1.0 302 Found`, are stored; the request for 7000 names the path
`/comm.cgi?comrdtrate=7000`. -/
theorem setRDTOutputRate_range_witness :
    FTSensor.setRDTOutputRate 0 runningSensor (netWith (streamAnswers foundBody))
      = some (false, runningSensor, netWith (streamAnswers foundBody))
    ∧ FTSensor.setRDTOutputRate 7001 runningSensor (netWith (streamAnswers foundBody))
      = some (false, runningSensor, netWith (streamAnswers foundBody))
    ∧ (FTSensor.setRDTOutputRate 1 runningSensor
        (netWith (streamAnswers foundBody))).map (fun r => (r.1, r.2.1.rdt_rate_))
        = some (true, 1)
    ∧ (FTSensor.setRDTOutputRate 7000 runningSensor
        (netWith (streamAnswers foundBody))).map (fun r => (r.1, r.2.1.rdt_rate_))
        = some (true, 7000)
    ∧ (FTSensor.setRDTOutputRate 7000 runningSensor
        (netWith (streamAnswers foundBody))).map (fun r => r.2.2.calls.head?)
        = some (some (Call.send 3 (bytesOf
            "GET /comm.cgi?comrdtrate=7000 HTTP/1.0\r\nHost: 192.168.100.103\r\n\r\n".toList))) :=
  ⟨(setRDTOutputRate_range runningSensor (netWith (streamAnswers foundBody))).1 0 (by decide),
    (setRDTOutputRate_range runningSensor (netWith (streamAnswers foundBody))).1 7001
      (by decide),
    by
      rw [(setRDTOutputRate_range runningSensor (netWith (streamAnswers foundBody))).2 1 65536
        (chunksOf 64 foundBody) (by decide) (by decide) rfl (by decide) (by decide) (by decide)]
      rfl,
    by
      rw [(setRDTOutputRate_range runningSensor (netWith (streamAnswers foundBody))).2 7000 65536
        (chunksOf 64 foundBody) (by decide) (by decide) rfl (by decide) (by decide) (by decide)]
      rfl,
    by decide⟩

end ati

namespace ati

/-! ## Theorems: initialisation and calibration -/

set_option maxRecDepth 100000

theorem sendCommand_flag (H : Header) (cmd : Nat) (s : FTSensor) (w : Net) :
    (FTSensor.sendCommand H cmd s w).1 = true
      ↔ ∃ n, 8 ≤ n ∧ w.sendOut w.calls.length = SendOutcome.wrote n := by
  simp only [FTSensor.sendCommand, requestBytes_eq, decide_eq_true_eq]
  rw [show sizeofRequest = 8 from rfl,
    toSizeT_send_eq w s.socketHandle_ _ (by rfl)]
  unfold Net.send
  cases h : w.sendOut w.calls.length with
  | failed code =>
    have := code.isLt
    constructor
    · intro h8
      simp only [] at h8
      omega
    · rintro ⟨m, _, hm⟩
      cases hm
  | wrote n =>
    simp only [List.length_cons, List.length_nil]
    constructor
    · intro h8
      exact ⟨n, by omega, rfl⟩
    · rintro ⟨m, hm, heq⟩
      cases heq
      omega

theorem sendCommand_net (H : Header) (cmd : Nat) (s : FTSensor) (w : Net) :
    (FTSensor.sendCommand H cmd s w).2.2
      = w.logAll [Call.send s.socketHandle_ (specCommandWire H cmd s.cmd_.sample_count)] := by
  simp only [FTSensor.sendCommand, requestBytes_eq, Net.send, Net.log, Net.logAll,
    specCommandWire, specBE32, List.cons_append, List.nil_append]

theorem getResponse_flag (s : FTSensor) (w : Net) :
    (FTSensor.getResponse s w).1 = true
      ↔ ∃ data, 36 ≤ data.length ∧ w.recvOut w.calls.length = RecvOutcome.got data := by
  simp only [FTSensor.getResponse, Net.recv, RDT_RECORD_SIZE, decide_eq_true_eq, sizeofResponse]
  cases h : w.recvOut w.calls.length with
  | failed code =>
    have := code.isLt
    constructor
    · intro h36
      simp only [] at h36
      omega
    · rintro ⟨d, _, hd⟩
      cases hd
  | got data =>
    simp only [List.length_take]
    constructor
    · intro h36
      exact ⟨data, by omega, rfl⟩
    · rintro ⟨d, hd, heq⟩
      cases heq
      omega

theorem getResponse_net (s : FTSensor) (w : Net) :
    (FTSensor.getResponse s w).2.2 = w.logAll [Call.recv s.socketHandle_ 36] := by
  simp only [FTSensor.getResponse, Net.recv, sizeofResponse]
  cases w.recvOut w.calls.length <;> rfl

theorem startMode_run (H : Header) (X sc : Nat) (s : FTSensor) (w : Net) :
    (FTSensor.sendCommand0 H (FTSensor.setCommand X (FTSensor.setSampleCount sc s)) w).2.2
        = w.logAll [Call.send s.socketHandle_
            (specCommandWire H (X % 65536) (sc % 4294967296))]
    ∧ ((FTSensor.sendCommand0 H (FTSensor.setCommand X (FTSensor.setSampleCount sc s)) w).1 = true
        ↔ ∃ n, 8 ≤ n ∧ w.sendOut w.calls.length = SendOutcome.wrote n) := by
  refine ⟨?_, ?_⟩
  · rw [FTSensor.sendCommand0, sendCommand_net]
    rfl
  · rw [FTSensor.sendCommand0, sendCommand_flag]

theorem startStreaming_keeps (H : Header) (n : Int) (s : FTSensor) (w : Net) :
    (FTSensor.startStreaming H n s w).2.1.initialized_ = s.initialized_
    ∧ (FTSensor.startStreaming H n s w).2.1.ip = s.ip
    ∧ (FTSensor.startStreaming H n s w).2.1.calibration_index = s.calibration_index
    ∧ (FTSensor.startStreaming H n s w).2.1.socketHTTPHandle_ = s.socketHTTPHandle_
    ∧ (FTSensor.startStreaming H n s w).2.1.socketHandle_ = s.socketHandle_ := by
  unfold FTSensor.startStreaming FTSensor.startStreaming0
  split_ifs <;> exact ⟨rfl, rfl, rfl, rfl, rfl⟩

theorem startStreaming_mode (H : Header) (nb : Int) (s : FTSensor) (w : Net)
    (hm : s.cmd_.command = H.REALTIME ∨ s.cmd_.command = H.BUFFERED
      ∨ s.cmd_.command = H.MULTIUNIT) :
    ∃ count,
      (FTSensor.startStreaming H nb s w).2.2
        = w.logAll [Call.send s.socketHandle_
            (specCommandWire H (s.cmd_.command % 65536) count)]
      ∧ ((FTSensor.startStreaming H nb s w).1 = true
          ↔ ∃ n, 8 ≤ n ∧ w.sendOut w.calls.length = SendOutcome.wrote n) := by
  unfold FTSensor.startStreaming FTSensor.startStreaming0 FTSensor.startRealTimeStreaming
    FTSensor.startBufferedStreaming FTSensor.startMultiUnitStreaming
  split_ifs with h0 h1 h2 h3 h1 h2 h3
  · rw [h1]; exact ⟨_, startMode_run H _ _ s w⟩
  · rw [h2]; exact ⟨_, startMode_run H _ _ s w⟩
  · rw [h3]; exact ⟨_, startMode_run H _ _ s w⟩
  · rcases hm with h | h | h
    · exact absurd h h1
    · exact absurd h h2
    · exact absurd h h3
  · rw [h1]; exact ⟨_, startMode_run H _ _ s w⟩
  · rw [h2]; exact ⟨_, startMode_run H _ _ s w⟩
  · rw [h3]; exact ⟨_, startMode_run H _ _ s w⟩
  · rcases hm with h | h | h
    · exact absurd h h1
    · exact absurd h h2
    · exact absurd h h3

theorem startStreaming_other (H : Header) (nb : Int) (s : FTSensor) (w : Net)
    (hm : ¬ (s.cmd_.command = H.REALTIME ∨ s.cmd_.command = H.BUFFERED
      ∨ s.cmd_.command = H.MULTIUNIT)) :
    FTSensor.startStreaming H nb s w = (false, s, w) := by
  have h1 : ¬ s.cmd_.command = H.REALTIME := fun h => hm (Or.inl h)
  have h2 : ¬ s.cmd_.command = H.BUFFERED := fun h => hm (Or.inr (Or.inl h))
  have h3 : ¬ s.cmd_.command = H.MULTIUNIT := fun h => hm (Or.inr (Or.inr h))
  unfold FTSensor.startStreaming FTSensor.startStreaming0
  simp only [h1, h2, h3, if_false, ite_self]

theorem recvLoop_keeps (fuel : Nat) :
    ∀ (s : FTSensor) (w : Net) (pos : Int) (r : FTSensor × Net × Int),
      FTSensor.recvLoop fuel s w pos = some r →
        r.1.initialized_ = s.initialized_ := by
  induction fuel with
  | zero =>
    intro s w pos r h
    simp only [FTSensor.recvLoop] at h
    split at h
    · cases h
    · cases h; rfl
  | succ f ih =>
    intro s w pos r h
    simp only [FTSensor.recvLoop] at h
    split at h
    · split at h
      · cases h; rfl
      · have hrec := ih _ _ _ r h
        exact hrec
    · cases h; rfl

theorem getCalibrationData_initialized (H : Header) (s : FTSensor) (w : Net)
    (c : Bool × FTSensor × Net) (h : FTSensor.getCalibrationData H s w = some c) :
    c.2.1.initialized_ = s.initialized_ := by
  unfold FTSensor.getCalibrationData at h
  split at h
  · unfold FTSensor.getCalibrationDataRtnet at h
    simp only [] at h
    split at h
    · cases h
    · rename_i s1 w1 p hloop
      have hi := recvLoop_keeps _ _ _ _ _ hloop
      simp only [] at hi
      repeat' split at h
      all_goals first
        | (cases h; done)
        | (cases h; exact hi)
  · unfold FTSensor.getCalibrationDataXml at h
    simp only [] at h
    repeat' split at h
    all_goals first
      | (cases h; done)
      | (cases h; rfl)

theorem openSocket_eq (handle : Int) (ip : List Char) (port : Nat) (udp : Bool) (w : Net) :
    FTSensor.openSocket handle ip port udp w =
      if w.socketOut (w.calls.length + (if handle = -1 then 0 else 1)) < 0 then
        some (w.socketOut (w.calls.length + (if handle = -1 then 0 else 1)),
          w.logAll ((if handle = -1 then [] else [Call.close handle]) ++ [Call.socket udp]))
      else if w.resolves ip then
        some (w.socketOut (w.calls.length + (if handle = -1 then 0 else 1)),
          w.logAll ((if handle = -1 then [] else [Call.close handle]) ++ [Call.socket udp,
            Call.connect (w.socketOut (w.calls.length + (if handle = -1 then 0 else 1)))
              ip port]))
      else none := by
  unfold FTSensor.openSocket
  by_cases hh : handle = -1
  · simp only [hh, ne_eq, not_true_eq_false, if_false, if_true, Net.socket, Net.log, Net.logAll,
      List.nil_append, Nat.add_zero, List.append_assoc, List.cons_append]
  · simp only [hh, ne_eq, not_false_eq_true, if_false, if_true, Net.socket, Net.close, Net.log,
      Net.logAll, List.length_append, List.length_cons, List.length_nil, List.append_assoc,
      List.cons_append, List.nil_append, Nat.zero_add]

theorem openSocket_some (handle : Int) (ip : List Char) (port : Nat) (udp : Bool) (w : Net)
    (a : Int × Net) (h : FTSensor.openSocket handle ip port udp w = some a) :
    a.1 = w.socketOut (w.calls.length + (if handle = -1 then 0 else 1))
    ∧ ∃ l, a.2 = w.logAll l ∧ (∀ c ∈ l, c.isTransfer = false)
      ∧ l.length = (if handle = -1 then 0 else 1)
          + (if w.socketOut (w.calls.length + (if handle = -1 then 0 else 1)) < 0
              then 1 else 2) := by
  rw [openSocket_eq] at h
  generalize hk : w.calls.length + (if handle = -1 then 0 else 1) = k at h ⊢
  generalize hp : (if handle = -1 then [] else [Call.close handle]) = pre at h
  have hpre : (∀ c ∈ pre, c.isTransfer = false)
      ∧ pre.length = (if handle = -1 then 0 else 1) := by
    rw [← hp]
    by_cases hh : handle = -1
    · simp only [hh, if_true, List.not_mem_nil, false_implies, implies_true, List.length_nil,
        and_self]
    · simp only [hh, if_false, List.mem_singleton, forall_eq, Call.isTransfer,
        List.length_singleton, and_self]
  rw [← hpre.2]
  by_cases hneg : w.socketOut k < 0
  · rw [if_pos hneg] at h
    cases h
    refine ⟨rfl, _, rfl, ?_, ?_⟩
    · intro c hc
      rcases List.mem_append.mp hc with hc | hc
      · exact hpre.1 c hc
      · rw [List.mem_singleton] at hc
        rw [hc]
        rfl
    · simp only [hneg, if_true, List.length_append, List.length_singleton]
  · rw [if_neg hneg] at h
    by_cases hres : w.resolves ip = true
    · rw [if_pos hres] at h
      cases h
      refine ⟨rfl, _, rfl, ?_, ?_⟩
      · intro c hc
        rcases List.mem_append.mp hc with hc | hc
        · exact hpre.1 c hc
        · simp only [List.mem_cons, List.mem_singleton, List.not_mem_nil, or_false] at hc
          rcases hc with hc | hc <;> (rw [hc]; rfl)
      · simp only [hneg, if_false, List.length_append, List.length_cons, List.length_nil]
    · rw [if_neg hres] at h
      cases h

theorem openSocket_returns (handle : Int) (ip : List Char) (port : Nat) (udp : Bool) (w : Net)
    (hres : w.resolves ip = true) : ∃ a, FTSensor.openSocket handle ip port udp w = some a := by
  rw [openSocket_eq]
  by_cases hneg : w.socketOut (w.calls.length + (if handle = -1 then 0 else 1)) < 0
  · rw [if_pos hneg]
    exact ⟨_, rfl⟩
  · rw [if_neg hneg, if_pos hres]
    exact ⟨_, rfl⟩

theorem openSockets_some (s : FTSensor) (w : Net) (o : Bool × FTSensor × Net)
    (h : FTSensor.openSockets s w = some o) :
    o.1 = (decide (w.socketOut (FTSensor.httpSocketCall s w) ≠ -1)
            && decide (w.socketOut (FTSensor.dataSocketCall s w) ≠ -1))
    ∧ o.2.1 = { s with
        socketHTTPHandle_ := w.socketOut (FTSensor.httpSocketCall s w)
        socketHandle_ := w.socketOut (FTSensor.dataSocketCall s w) }
    ∧ ∃ l, o.2.2 = w.logAll l ∧ (∀ c ∈ l, c.isTransfer = false)
        ∧ w.calls.length + l.length = FTSensor.stopSendCall s w := by
  unfold FTSensor.openSockets at h
  split at h
  · cases h
  · rename_i a e1
    simp only [] at h
    split at h
    · cases h
    · rename_i b e2
      obtain ⟨ha, l1, hl1, hn1, hlen1⟩ := openSocket_some _ _ _ _ _ _ e1
      obtain ⟨hb, l2, hl2, hn2, hlen2⟩ := openSocket_some _ _ _ _ _ _ e2
      have hk1 : w.calls.length + (if s.socketHTTPHandle_ = -1 then 0 else 1)
          = FTSensor.httpSocketCall s w := rfl
      rw [hk1] at ha hlen1
      have hk2 : a.2.calls.length + (if s.socketHandle_ = -1 then 0 else 1)
          = FTSensor.dataSocketCall s w := by
        rw [hl1]
        simp only [Net.logAll, List.length_append, hlen1, FTSensor.dataSocketCall]
        rw [← hk1]
        omega
      have hso : a.2.socketOut = w.socketOut := by rw [hl1]; rfl
      change b.1 = a.2.socketOut (a.2.calls.length + (if s.socketHandle_ = -1 then 0 else 1))
        at hb
      change l2.length = (if s.socketHandle_ = -1 then 0 else 1)
        + (if a.2.socketOut (a.2.calls.length + (if s.socketHandle_ = -1 then 0 else 1)) < 0
            then 1 else 2) at hlen2
      rw [hk2, hso] at hb hlen2
      cases h
      refine ⟨?_, ?_, l1 ++ l2, ?_, ?_, ?_⟩
      · simp only [ha, hb]
      · simp only [ha, hb]
      · simp only []
        rw [hl2, hl1, logAll_logAll]
      · intro c hc
        rcases List.mem_append.mp hc with hc | hc
        · exact hn1 c hc
        · exact hn2 c hc
      · simp only [List.length_append, hlen1, hlen2, FTSensor.stopSendCall,
          FTSensor.dataSocketCall]
        omega

theorem openSockets_returns (s : FTSensor) (w : Net) (hres : w.resolves s.ip = true) :
    ∃ o, FTSensor.openSockets s w = some o := by
  unfold FTSensor.openSockets
  obtain ⟨a, ha⟩ := openSocket_returns s.socketHTTPHandle_ s.getIP 80 false w hres
  rw [ha]
  simp only []
  have hres2 : a.2.resolves s.getIP = true := by
    obtain ⟨_, l, hl, _⟩ := openSocket_some _ _ _ _ _ _ ha
    rw [hl]
    exact hres
  obtain ⟨b, hb⟩ := openSocket_returns s.socketHandle_ s.getIP s.getPort true a.2 hres2
  simp only [FTSensor.getIP, FTSensor.getPort] at hb ⊢
  rw [hb]
  exact ⟨_, rfl⟩

theorem initAfterOpen_other (H : Header) (cmd : Nat) (sc : Int) (s : FTSensor) (w : Net)
    (hm : ¬ FTSensor.isStreamingMode H cmd) :
    ∃ s', s'.initialized_ = false
      ∧ FTSensor.initAfterOpen H cmd sc s w = some (false, s',
        w.logAll [Call.send s.socketHandle_ (specCommandWire H H.STOP s.cmd_.sample_count),
          Call.recv s.socketHandle_ 36]) := by
  have hother := startStreaming_other H sc
    (FTSensor.setCommand cmd (FTSensor.stopStreaming H s w).2.1)
    (FTSensor.stopStreaming H s w).2.2 hm
  have hnet : (FTSensor.stopStreaming H s w).2.2
      = w.logAll [Call.send s.socketHandle_ (specCommandWire H H.STOP s.cmd_.sample_count)] :=
    sendCommand_net H H.STOP s w
  unfold FTSensor.initAfterOpen
  simp only [hother]
  simp only [Bool.and_false, (getResponse_keeps _ _).2.1, Bool.false_and,
    Bool.false_eq_true, if_false, getResponse_net, hnet, logAll_logAll]
  exact ⟨_, rfl, rfl⟩

theorem initAfterOpen_mode (H : Header) (cmd : Nat) (sc : Int) (s : FTSensor) (w : Net)
    (hi : s.initialized_ = true) (hm : FTSensor.isStreamingMode H cmd) :
    ∃ count,
      (¬ ((∃ n, 8 ≤ n ∧ w.sendOut (w.calls.length + 1) = SendOutcome.wrote n)
          ∧ ∃ data, 36 ≤ data.length ∧ w.recvOut (w.calls.length + 2) = RecvOutcome.got data) →
        ∃ s', s'.initialized_ = false
          ∧ FTSensor.initAfterOpen H cmd sc s w = some (false, s',
            w.logAll [Call.send s.socketHandle_ (specCommandWire H H.STOP s.cmd_.sample_count),
              Call.send s.socketHandle_ (specCommandWire H (cmd % 65536) count),
              Call.recv s.socketHandle_ 36]))
      ∧ (((∃ n, 8 ≤ n ∧ w.sendOut (w.calls.length + 1) = SendOutcome.wrote n)
          ∧ ∃ data, 36 ≤ data.length ∧ w.recvOut (w.calls.length + 2) = RecvOutcome.got data) →
        ∃ sC, sC.initialized_ = true ∧ sC.ip = s.ip
          ∧ sC.calibration_index = s.calibration_index
          ∧ sC.socketHTTPHandle_ = s.socketHTTPHandle_ ∧ sC.socketHandle_ = s.socketHandle_
          ∧ FTSensor.initAfterOpen H cmd sc s w
            = (FTSensor.getCalibrationData H sC
                (w.logAll [Call.send s.socketHandle_
                    (specCommandWire H H.STOP s.cmd_.sample_count),
                  Call.send s.socketHandle_ (specCommandWire H (cmd % 65536) count),
                  Call.recv s.socketHandle_ 36])).map (fun c => (true, c.2.1, c.2.2))) := by
  have hnet : (FTSensor.stopStreaming H s w).2.2
      = w.logAll [Call.send s.socketHandle_ (specCommandWire H H.STOP s.cmd_.sample_count)] :=
    sendCommand_net H H.STOP s w
  obtain ⟨count, hA2, hA1⟩ := startStreaming_mode H sc
    (FTSensor.setCommand cmd (FTSensor.stopStreaming H s w).2.1)
    (FTSensor.stopStreaming H s w).2.2 hm
  obtain ⟨hk1, hk2, hk3, hk4, hk5⟩ := startStreaming_keeps H sc
    (FTSensor.setCommand cmd (FTSensor.stopStreaming H s w).2.1)
    (FTSensor.stopStreaming H s w).2.2
  have hk2' : ∀ a : Bool × FTSensor × Net,
      a = FTSensor.startStreaming H sc
        (FTSensor.setCommand cmd (FTSensor.stopStreaming H s w).2.1)
        (FTSensor.stopStreaming H s w).2.2 →
      a.2.1.initialized_ = true ∧ a.2.1.ip = s.ip
      ∧ a.2.1.calibration_index = s.calibration_index
      ∧ a.2.1.socketHTTPHandle_ = s.socketHTTPHandle_
      ∧ a.2.1.socketHandle_ = s.socketHandle_
      ∧ a.2.2 = w.logAll
        [Call.send s.socketHandle_ (specCommandWire H H.STOP s.cmd_.sample_count),
          Call.send s.socketHandle_ (specCommandWire H (cmd % 65536) count)]
      ∧ (a.1 = true
        ↔ ∃ n, 8 ≤ n ∧ w.sendOut (w.calls.length + 1) = SendOutcome.wrote n) := by
    intro a ha
    subst ha
    refine ⟨hk1.trans hi, hk2, hk3, hk4, hk5, ?_, ?_⟩
    · rw [hA2, hnet, logAll_logAll]
      simp only [FTSensor.setCommand, Nat.mod_mod, List.cons_append, List.nil_append]
      rfl
    · rw [hA1, hnet]
      simp only [Net.logAll, List.length_append, List.length_singleton]
  have hgen : ∀ a : Bool × FTSensor × Net,
      a.2.1.initialized_ = true → a.2.1.ip = s.ip
      → a.2.1.calibration_index = s.calibration_index
      → a.2.1.socketHTTPHandle_ = s.socketHTTPHandle_
      → a.2.1.socketHandle_ = s.socketHandle_
      → a.2.2 = w.logAll
        [Call.send s.socketHandle_ (specCommandWire H H.STOP s.cmd_.sample_count),
          Call.send s.socketHandle_ (specCommandWire H (cmd % 65536) count)]
      → ∀ g : Bool × FTSensor × Net,
        g = FTSensor.getResponse { a.2.1 with initialized_ := a.2.1.initialized_ && a.1 } a.2.2 →
        g.2.1.initialized_ = a.1 ∧ g.2.1.ip = s.ip
        ∧ g.2.1.calibration_index = s.calibration_index
        ∧ g.2.1.socketHTTPHandle_ = s.socketHTTPHandle_
        ∧ g.2.1.socketHandle_ = s.socketHandle_
        ∧ g.2.2 = w.logAll
          [Call.send s.socketHandle_ (specCommandWire H H.STOP s.cmd_.sample_count),
            Call.send s.socketHandle_ (specCommandWire H (cmd % 65536) count),
            Call.recv s.socketHandle_ 36]
        ∧ (g.1 = true
          ↔ ∃ data, 36 ≤ data.length
              ∧ w.recvOut (w.calls.length + 2) = RecvOutcome.got data) := by
    intro a h1 h2 h3 h4 h5 h6 g hg
    subst hg
    refine ⟨?_, h2, h3, h4, h5, ?_, ?_⟩
    · show (a.2.1.initialized_ && a.1) = a.1
      rw [h1, Bool.true_and]
    · rw [getResponse_net, h6, logAll_logAll]
      show w.logAll (_ ++ [Call.recv a.2.1.socketHandle_ 36]) = _
      rw [h5]
      rfl
    · rw [getResponse_flag, h6]
      simp only [Net.logAll, List.length_append, List.length_cons, List.length_nil]
  obtain ⟨a1, a2, a3, a4, a5, a6, a7⟩ := hk2' _ rfl
  obtain ⟨g1, g2, g3, g4, g5, g6, g7⟩ := hgen _ a1 a2 a3 a4 a5 a6 _ rfl
  refine ⟨count, ?_, ?_⟩
  · intro hnot
    unfold FTSensor.initAfterOpen
    simp only []
    generalize FTSensor.getResponse _ _ = g at g1 g2 g3 g4 g5 g6 g7 ⊢
    generalize FTSensor.startStreaming _ _ _ _ = a at a7 g1
    have hf : (g.2.1.initialized_ && g.1) = false := by
      rw [g1]
      by_contra hcon
      simp only [Bool.and_eq_false_imp, Bool.not_eq_false, not_forall] at hcon
      exact hnot ⟨a7.mp hcon.1, g7.mp hcon.2⟩
    rw [if_neg (by rw [hf]; exact Bool.false_ne_true)]
    refine ⟨{ g.2.1 with initialized_ := g.2.1.initialized_ && g.1 }, hf, ?_⟩
    rw [hf, g6]
  · rintro ⟨hs, hr⟩
    unfold FTSensor.initAfterOpen
    simp only []
    generalize FTSensor.getResponse _ _ = g at g1 g2 g3 g4 g5 g6 g7 ⊢
    generalize FTSensor.startStreaming _ _ _ _ = a at a7 g1
    have ht : (g.2.1.initialized_ && g.1) = true := by
      rw [g1, a7.mpr hs, g7.mpr hr]
      rfl
    rw [if_pos ht]
    refine ⟨{ g.2.1 with initialized_ := g.2.1.initialized_ && g.1 }, ht, g2, g3, g4, g5, ?_⟩
    rw [← g6]
    cases e : FTSensor.getCalibrationData H
        { g.2.1 with initialized_ := g.2.1.initialized_ && g.1 } g.2.2 with
    | none => rfl
    | some c =>
      have hc := getCalibrationData_initialized H _ _ c e
      simp only [Option.map_some']
      rw [hc, ht]

theorem wroteAll_iff (o : SendOutcome) (len : Nat) :
    o.wroteAll len = true ↔ ∃ n, len ≤ n ∧ o = SendOutcome.wrote n := by
  cases o with
  | failed code =>
    constructor
    · intro h; cases h
    · rintro ⟨n, _, h⟩; cases h
  | wrote m =>
    simp only [SendOutcome.wroteAll, decide_eq_true_eq]
    constructor
    · intro h; exact ⟨m, h, rfl⟩
    · rintro ⟨n, hn, h⟩; cases h; exact hn

theorem gotAll_iff (o : RecvOutcome) (len : Nat) :
    o.gotAll len = true ↔ ∃ data, len ≤ data.length ∧ o = RecvOutcome.got data := by
  cases o with
  | failed code =>
    constructor
    · intro h; cases h
    · rintro ⟨n, _, h⟩; cases h
  | got d =>
    simp only [RecvOutcome.gotAll, decide_eq_true_eq]
    constructor
    · intro h; exact ⟨d, h, rfl⟩
    · rintro ⟨n, hn, h⟩; cases h; exact hn

theorem initAfterOpen_flag (H : Header) (cmd : Nat) (sc : Int) (s : FTSensor) (w : Net)
    (r : Bool × FTSensor × Net) (h : FTSensor.initAfterOpen H cmd sc s w = some r) :
    r.2.1.initialized_ = r.1 := by
  unfold FTSensor.initAfterOpen at h
  simp only [] at h
  split at h
  · split at h
    · cases h
    · cases h; rfl
  · cases h; rfl

theorem init_flag (H : Header) (ip : List Char) (calibration_index : Int) (cmd : Nat)
    (sample_count : Int) (s : FTSensor) (w : Net) (r : Bool × FTSensor × Net)
    (h : FTSensor.init H ip calibration_index cmd sample_count s w = some r) :
    r.2.1.initialized_ = r.1 := by
  unfold FTSensor.init at h
  split at h
  · cases h; rfl
  · split at h
    · cases h
    · split at h
      · exact initAfterOpen_flag _ _ _ _ _ _ h
      · cases h; rfl

/-- What `init` does once `openSockets` has returned, for a non-empty address. -/
theorem init_opened (H : Header) (ip : List Char) (calibration_index : Int) (cmd : Nat)
    (sample_count : Int) (s : FTSensor) (w : Net) (hip : ip ≠ [])
    (o : Bool × FTSensor × Net)
    (ho : FTSensor.openSockets (FTSensor.initEntry H ip calibration_index s) w = some o) :
    ∃ l, (∀ c ∈ l, c.isTransfer = false)
      ∧ w.calls.length + l.length = FTSensor.stopSendCall s w
      ∧ FTSensor.init H ip calibration_index cmd sample_count s w =
        if w.socketOut (FTSensor.httpSocketCall s w) ≠ -1
            ∧ w.socketOut (FTSensor.dataSocketCall s w) ≠ -1 then
          FTSensor.initAfterOpen H cmd sample_count
            { FTSensor.initEntry H ip calibration_index s with
              socketHTTPHandle_ := w.socketOut (FTSensor.httpSocketCall s w)
              socketHandle_ := w.socketOut (FTSensor.dataSocketCall s w) } (w.logAll l)
        else
          some (false,
            { FTSensor.initEntry H ip calibration_index s with
              socketHTTPHandle_ := w.socketOut (FTSensor.httpSocketCall s w)
              socketHandle_ := w.socketOut (FTSensor.dataSocketCall s w)
              initialized_ := false }, w.logAll l) := by
  obtain ⟨h1, h2, l, h3, hl, hlen⟩ := openSockets_some _ _ _ ho
  refine ⟨l, hl, hlen, ?_⟩
  unfold FTSensor.init
  rw [if_neg hip, ho]
  simp only []
  rcases o with ⟨o1, o2, o3⟩
  simp only [] at h1 h2 h3
  subst h1 h2 h3
  simp only [Bool.and_eq_true, decide_eq_true_eq]
  rfl

/-- The crash of `init` the model keeps as `none`: the address is not empty, the HTTP
`socket()` call gives a handle, and `gethostbyname` finds no address. -/
theorem init_unresolved_address (H : Header) (ip : List Char) (calibration_index : Int)
    (cmd : Nat) (sample_count : Int) (s : FTSensor) (w : Net) (hip : ip ≠ [])
    (hres : w.resolves ip = false) (hopen : 0 ≤ w.socketOut (FTSensor.httpSocketCall s w)) :
    FTSensor.init H ip calibration_index cmd sample_count s w = none := by
  have hneg : ¬ (w.socketOut (FTSensor.httpSocketCall s w) < 0) := by omega
  have h1 : FTSensor.openSocket (FTSensor.initEntry H ip calibration_index s).socketHTTPHandle_
      (FTSensor.initEntry H ip calibration_index s).getIP 80 false w = none := by
    rw [openSocket_eq]
    unfold FTSensor.httpSocketCall at hneg
    show (if w.socketOut (w.calls.length + (if s.socketHTTPHandle_ = -1 then 0 else 1)) < 0
      then _ else if w.resolves ip = true then _ else none) = none
    rw [if_neg hneg, hres]
    rfl
  unfold FTSensor.init FTSensor.openSockets
  rw [if_neg hip, h1]

/-- C9, the code at its failing input.  Without `HAVE_RTNET`, on a freshly constructed
sensor (both scale factors 1000000) and the document
`<netft><cfgcpt>1000000</cfgcpt></netft>`, which has no `cfgcpf` element,
`getCalibrationData` returns true and `counts_per_force` becomes 0.  With `HAVE_RTNET`,
a page whose `cfgcpf` is 0 gives false and both factors keep 1000000. -/
theorem getCalibrationData_xml_success_without_cpf :
    freshSensor.resp_.cpf = 1000000 ∧ freshSensor.resp_.cpt = 1000000
    ∧ findElementRecusive docWithoutCpf "cfgcpf".toList [] = some []
    ∧ (FTSensor.getCalibrationData sampleHeader freshSensor
        (initNet (SendOutcome.wrote 8) (SendOutcome.wrote 8) (some docWithoutCpf))).map
          (fun r => (r.1, r.2.1.resp_.cpf, r.2.1.resp_.cpt)) = some (true, 0, 1000000)
    ∧ (FTSensor.getCalibrationData sampleHeaderRtnet runningSensor
        (netWith (streamAnswers bodyZeroCpf))).map
          (fun r => (r.1, r.2.1.resp_.cpf, r.2.1.resp_.cpt)) = some (false, 1000000, 1000000) := by
  decide

/-- C10, the code at its failing input.  With `HAVE_RTNET`, on a page with `cfgcpf` and
`cfgcpt` at 1000000 and no `setbias` element, `getCalibrationData` returns true and
stores both factors, and the first gauge bias changes from 11 to 200: the text
searched for the bias starts at index 8 of the page, ` 200 OK...`.  Without
`HAVE_RTNET` the same document leaves the six biases as they were. -/
theorem getCalibrationData_rtnet_overwrites_bias :
    strFind (cstring bodyWithoutBias) "<setbias>".toList 0 = npos
    ∧ runningSensor.setbias_ = [11, 12, 13, 14, 15, 16]
    ∧ (FTSensor.getCalibrationData sampleHeaderRtnet runningSensor
        (netWith (streamAnswers bodyWithoutBias))).map
          (fun r => (r.1, r.2.1.resp_.cpf, r.2.1.resp_.cpt, r.2.1.setbias_))
        = some (true, 1000000, 1000000, [200, 12, 13, 14, 15, 16])
    ∧ (FTSensor.getCalibrationData sampleHeader runningSensor
        (initNet (SendOutcome.wrote 8) (SendOutcome.wrote 8) (some docWithoutBias))).map
          (fun r => (r.1, r.2.1.resp_.cpf, r.2.1.resp_.cpt, r.2.1.setbias_))
        = some (true, 1000000, 1000000, [11, 12, 13, 14, 15, 16]) := by
  decide

end ati

namespace ati

/-! ## Theorems: teardown -/

/-- The calls of the destructor, for every object and network: the STOP send on the
data socket comes first, whatever it returns; the data handle is closed when it is not
negative; the HTTP handle is looked at only when the data handle is negative or its
close returned a positive value, and is then closed when it is not negative. -/
theorem destruct_calls (H : Header) (s : FTSensor) (w : Net) :
    (FTSensor.destruct H s w).2.calls =
      w.calls
        ++ [Call.send s.socketHandle_
            [H.command_header / 256 % 256, H.command_header % 256,
             H.STOP / 256 % 256, H.STOP % 256,
             s.cmd_.sample_count / 16777216 % 256, s.cmd_.sample_count / 65536 % 256,
             s.cmd_.sample_count / 256 % 256, s.cmd_.sample_count % 256]]
        ++ (if s.socketHandle_ < 0 then
              (if s.socketHTTPHandle_ < 0 then [] else [Call.close s.socketHTTPHandle_])
            else if w.closeOut (w.calls.length + 1) > 0 then
              Call.close s.socketHandle_
                :: (if s.socketHTTPHandle_ < 0 then [] else [Call.close s.socketHTTPHandle_])
            else [Call.close s.socketHandle_]) := by
  have hsend := sendCommand_calls H H.STOP s w
  have hlen : (FTSensor.sendCommand H H.STOP s w).2.2.calls.length = w.calls.length + 1 := by
    rw [hsend]; simp
  have hout : (FTSensor.sendCommand H H.STOP s w).2.2.closeOut = w.closeOut := rfl
  simp only [FTSensor.destruct, FTSensor.stopStreaming, FTSensor.closeSockets,
    FTSensor.closeSocket, (sendCommand_keeps H H.STOP s w).2.2]
  have hhttp : (FTSensor.sendCommand H H.STOP s w).2.1.socketHTTPHandle_ = s.socketHTTPHandle_ :=
    rfl
  rw [hhttp]
  by_cases hd : s.socketHandle_ < 0
  · simp only [hd, if_true]
    by_cases hh : s.socketHTTPHandle_ < 0
    · simp [hh, hsend]
    · simp [hh, hsend, Net.close, Net.log]
  · simp only [hd, if_false]
    by_cases hc : w.closeOut (w.calls.length + 1) > 0
    · have hc' : ((FTSensor.sendCommand H H.STOP s w).2.2.close s.socketHandle_).1 > 0 := by
        simp only [Net.close, hlen, hout]; exact hc
      simp only [hc, hc', if_true]
      by_cases hh : s.socketHTTPHandle_ < 0
      · simp [hh, hsend, Net.close, Net.log]
      · simp [hh, hsend, Net.close, Net.log]
    · have hc' : ¬ ((FTSensor.sendCommand H H.STOP s w).2.2.close s.socketHandle_).1 > 0 := by
        simp only [Net.close, hlen, hout]; exact hc
      simp only [hc, hc', if_false]
      simp [hsend, Net.close, Net.log]

/-- C11, the code at its failing input.  The running sample sensor has the data socket 4
and the HTTP socket 3 open, and every close succeeds with 0.  The destructor sends the
STOP command and passes the data handle to close; the HTTP handle is never passed to
close.  The same happens when the STOP send fails: the data handle is still closed,
the HTTP handle is not. -/
theorem destruct_leaves_http_socket_open :
    runningSensor.socketHandle_ = 4 ∧ runningSensor.socketHTTPHandle_ = 3
    ∧ (netWith (fun _ => RecvOutcome.got [])).closeOut 1 = 0
    ∧ (FTSensor.destruct sampleHeader runningSensor
        (netWith (fun _ => RecvOutcome.got []))).2.calls
        = [Call.send 4 [18, 52, 0, 0, 0, 0, 0, 1], Call.close 4]
    ∧ (FTSensor.stopStreaming sampleHeader runningSensor
        (initNet (SendOutcome.failed 0) (SendOutcome.failed 0) none)).1 = false
    ∧ (FTSensor.destruct sampleHeader runningSensor
        (initNet (SendOutcome.failed 0) (SendOutcome.failed 0) none)).2.calls
        = [Call.send 4 [18, 52, 0, 0, 0, 0, 0, 1], Call.close 4] := by
  decide

/-! ## Theorems: the bias list parser -/

theorem convertAll_cons (conv : List Char → Option Int) (tok : List Char)
    (rest : List (List Char)) (vals : List Int)
    (h : convertAll conv (tok :: rest) = some vals) :
    ∃ v vs, conv tok = some v ∧ convertAll conv rest = some vs ∧ vals = v :: vs := by
  simp only [convertAll] at h
  cases hv : conv tok with
  | none => simp only [hv] at h; cases h
  | some v =>
    cases hvs : convertAll conv rest with
    | none => simp only [hv, hvs] at h; cases h
    | some vs =>
      simp only [hv, hvs] at h
      cases h
      exact ⟨v, vs, rfl, rfl, rfl⟩

theorem convertAll_length (conv : List Char → Option Int) (toks : List (List Char)) :
    ∀ vals, convertAll conv toks = some vals → vals.length = toks.length := by
  induction toks with
  | nil =>
    intro vals h
    simp only [convertAll] at h
    cases h
    rfl
  | cons t ts ih =>
    intro vals h
    obtain ⟨v, vs, _, hvs, rfl⟩ := convertAll_cons conv t ts vals h
    simp only [List.length_cons, ih vs hvs]

theorem split_run (p : Char → Bool) (l : List Char) :
    ∃ a b, l = a ++ b ∧ (∀ c ∈ a, p c = true) ∧ (∀ c cs, b = c :: cs → p c = false) := by
  induction l with
  | nil => exact ⟨[], [], rfl, by simp, by simp⟩
  | cons x xs ih =>
    by_cases hx : p x = true
    · obtain ⟨a, b, hab, ha, hb⟩ := ih
      refine ⟨x :: a, b, by rw [hab]; rfl, ?_, hb⟩
      intro c hc
      rcases List.mem_cons.mp hc with rfl | h
      · exact hx
      · exact ha c h
    · refine ⟨[], x :: xs, rfl, by simp, ?_⟩
      intro c cs h
      cases h
      simpa using hx

theorem tokensAux_delims (delim : Char) (ds r : List Char) (hds : ∀ c ∈ ds, c = delim) :
    tokensAux delim (ds ++ r) [] = tokensAux delim r [] := by
  induction ds with
  | nil => rfl
  | cons d ds ih =>
    have hd : d = delim := hds d (List.mem_cons_self _ _)
    simp only [List.cons_append, tokensAux, hd, if_true, List.append_eq]
    exact ih (fun c hc => hds c (List.mem_cons_of_mem _ hc))

theorem tokensAux_token (delim : Char) (tok : List Char) :
    ∀ (cur rest : List Char), (∀ c ∈ tok, c ≠ delim) → cur ++ tok ≠ [] →
      (∀ c cs, rest = c :: cs → c = delim) →
      tokensAux delim (tok ++ rest) cur = (cur ++ tok) :: tokensAux delim rest [] := by
  induction tok with
  | nil =>
    intro cur rest _ hne hrest
    have hcur : cur ≠ [] := by simpa using hne
    cases rest with
    | nil => simp [tokensAux, hcur]
    | cons c cs =>
      have hc : c = delim := hrest c cs rfl
      simp [tokensAux, hcur, hc]
  | cons t ts ih =>
    intro cur rest htok _ hrest
    have ht : t ≠ delim := htok t (List.mem_cons_self _ _)
    simp only [List.cons_append, tokensAux, ht, if_false, List.append_eq]
    rw [ih (cur ++ [t]) rest (fun c hc => htok c (List.mem_cons_of_mem _ hc)) (by simp) hrest]
    simp

theorem findAux_delim (delim : Char) (tok : List Char) :
    ∀ (rest : List Char) (i : Nat), (∀ c ∈ tok, c ≠ delim) →
      (∀ c cs, rest = c :: cs → c = delim) →
      findAux [delim] (tok ++ rest) i = if rest = [] then npos else i + tok.length := by
  induction tok with
  | nil =>
    intro rest i _ hrest
    cases rest with
    | nil => simp [findAux]
    | cons c cs =>
      have hc : c = delim := hrest c cs rfl
      simp [findAux, hc, List.isPrefixOf]
  | cons t ts ih =>
    intro rest i htok hrest
    have ht : t ≠ delim := htok t (List.mem_cons_self _ _)
    have hne : (delim == t) = false := by simpa using fun h => ht h.symm
    simp only [List.cons_append, findAux, List.isPrefixOf, hne, Bool.false_and,
      Bool.false_eq_true, if_false, List.append_eq]
    rw [ih rest (i + 1) (fun c hc => htok c (List.mem_cons_of_mem _ hc)) hrest]
    split
    · rfl
    · simp only [List.length_cons]; omega

theorem findNotAux_delims (delim : Char) (ds : List Char) :
    ∀ (r : List Char) (i : Nat), (∀ c ∈ ds, c = delim) →
      (∀ c cs, r = c :: cs → c ≠ delim) →
      findNotAux delim (ds ++ r) i = if r = [] then npos else i + ds.length := by
  induction ds with
  | nil =>
    intro r i _ hr
    cases r with
    | nil => simp [findNotAux]
    | cons c cs =>
      have hc : c ≠ delim := hr c cs rfl
      simp [findNotAux, hc]
  | cons d ds ih =>
    intro r i hds hr
    have hd : d = delim := hds d (List.mem_cons_self _ _)
    simp only [List.cons_append, findNotAux, hd, ne_eq, not_true_eq_false, if_false,
      List.append_eq]
    rw [ih r (i + 1) (fun c hc => hds c (List.mem_cons_of_mem _ hc)) hr]
    split
    · rfl
    · simp only [List.length_cons]; omega

theorem strFind_at (delim : Char) (p tok r1 : List Char)
    (htok : ∀ c ∈ tok, c ≠ delim) (hr1 : ∀ c cs, r1 = c :: cs → c = delim) :
    strFind (p ++ (tok ++ r1)) [delim] p.length
      = if r1 = [] then npos else p.length + tok.length := by
  have hle : ¬ (p.length > (p ++ (tok ++ r1)).length) := by
    simp only [List.length_append]; omega
  simp only [strFind, hle, if_false, List.drop_left]
  exact findAux_delim delim tok r1 p.length htok hr1

theorem strSubstr_token (p tok r1 : List Char) (hlen : (p ++ (tok ++ r1)).length < npos) :
    strSubstr (p ++ (tok ++ r1)) p.length
        (sizeSub (if r1 = [] then npos else p.length + tok.length) p.length)
      = some tok := by
  have hle : ¬ (p.length > (p ++ (tok ++ r1)).length) := by
    simp only [List.length_append]; omega
  simp only [List.length_append, npos] at hlen
  simp only [strSubstr, hle, if_false, List.drop_left]
  congr 1
  by_cases h : r1 = []
  · subst h
    simp only [if_true, List.append_nil, sizeSub, npos]
    apply List.take_of_length_le
    simp only [List.length_nil] at hlen
    omega
  · simp only [h, if_false, sizeSub]
    have : (p.length + tok.length + 18446744073709551616 - p.length % 18446744073709551616)
        % 18446744073709551616 = tok.length := by omega
    rw [this]
    exact List.take_left tok r1

theorem strFindFirstNotOf_next (delim : Char) (p tok ds r : List Char)
    (hlen : (p ++ (tok ++ (ds ++ r))).length < npos)
    (hds : ∀ c ∈ ds, c = delim) (hr : ∀ c cs, r = c :: cs → c ≠ delim) :
    strFindFirstNotOf (p ++ (tok ++ (ds ++ r))) delim
        (if ds ++ r = [] then npos else p.length + tok.length)
      = if r = [] then npos else (p ++ tok ++ ds).length := by
  by_cases h : ds ++ r = []
  · have hr' : r = [] := (List.append_eq_nil.mp h).2
    have : npos ≥ (p ++ (tok ++ (ds ++ r))).length := by omega
    rw [if_pos h, if_pos hr']
    simp only [strFindFirstNotOf, this, if_true]
  · have hlt : ¬ (p.length + tok.length ≥ (p ++ (tok ++ (ds ++ r))).length) := by
      have : 0 < (ds ++ r).length := List.length_pos.mpr h
      simp only [List.length_append] at this ⊢
      omega
    have hdrop : List.drop (p.length + tok.length) (p ++ (tok ++ (ds ++ r))) = ds ++ r := by
      rw [← List.append_assoc, ← List.length_append]
      exact List.drop_left _ _
    simp only [h, if_false, strFindFirstNotOf, hlt, hdrop]
    rw [findNotAux_delims delim ds r _ hds hr]
    simp only [List.length_append]

theorem set_at_length (pre : List Int) (m v : Int) (rest : List Int) :
    (pre ++ m :: rest).set pre.length v = pre ++ v :: rest := by
  induction pre with
  | nil => rfl
  | cons x xs ih => simp only [List.cons_append, List.length_cons, List.set_cons_succ, ih]

/-- The parsing loop, started at the first character of a token (or at `npos` when no
token is left), with `idx` entries before the ones it may write: when `conv` gives a
value for each of the next tokens, `len - idx` of them at most, the loop returns within
`len - idx` iterations, has stored these values in order, and has counted them. -/
theorem getArrayLoop_tokens (conv : List Char → Option Int) (str : List Char) (delim : Char)
    (len : Nat) (hstr : str.length < npos) (fuel : Nat) :
    ∀ (idx : Nat) (pre mid post : List Int) (p r : List Char) (vals : List Int),
      str = p ++ r → (∀ c cs, r = c :: cs → c ≠ delim) → len - idx ≤ fuel →
      pre.length = idx →
      convertAll conv ((tokensAux delim r []).take (len - idx)) = some vals →
      mid.length = vals.length →
      getArrayLoop conv str delim len fuel (if r = [] then npos else p.length) idx
          (pre ++ mid ++ post)
        = some (pre ++ vals ++ post, idx + vals.length) := by
  induction fuel with
  | zero =>
    intro idx pre mid post p r vals _ _ hfuel _ hconv hmid
    have h0 : len - idx = 0 := by omega
    rw [h0, List.take_zero] at hconv
    simp only [convertAll] at hconv
    cases hconv
    have hm : mid = [] := List.length_eq_zero.mp hmid
    have hcond : ¬ ((if r = [] then npos else p.length) ≠ npos ∧ idx < len) := by omega
    simp only [getArrayLoop, hcond, if_false, hm, List.append_nil, List.length_nil,
      Nat.add_zero]
  | succ f ih =>
    intro idx pre mid post p r vals hpr hr hfuel hpre hconv hmid
    cases hrc : r with
    | nil =>
      rw [hrc] at hconv
      simp only [tokensAux, if_true, List.take_nil, convertAll] at hconv
      cases hconv
      have hm : mid = [] := List.length_eq_zero.mp hmid
      simp only [if_true, getArrayLoop, ne_eq, not_true_eq_false, false_and, if_false, hm,
        List.append_nil, List.length_nil, Nat.add_zero]
    | cons c0 cs0 =>
      rw [← hrc]
      have hrne : r ≠ [] := by rw [hrc]; exact List.cons_ne_nil _ _
      have hplen : p.length ≠ npos := by
        have : p.length ≤ str.length := by rw [hpr]; simp
        omega
      by_cases hidx : idx < len
      · obtain ⟨tok, r1, hsplit, htok, hr1⟩ := split_run (fun c => c != delim) r
        have htok' : ∀ c ∈ tok, c ≠ delim := fun c hc => by simpa using htok c hc
        have hr1' : ∀ c cs, r1 = c :: cs → c = delim := fun c cs h => by
          simpa using hr1 c cs h
        have htokne : tok ≠ [] := by
          intro h
          rw [h, List.nil_append] at hsplit
          rw [hsplit] at hrc
          exact hr c0 cs0 (hsplit.trans hrc) (hr1' c0 cs0 hrc)
        obtain ⟨ds, r', hsplit2, hds, hr'⟩ := split_run (fun c => c == delim) r1
        have hds' : ∀ c ∈ ds, c = delim := fun c hc => by simpa using hds c hc
        have hr'' : ∀ c cs, r' = c :: cs → c ≠ delim := fun c cs h => by
          simpa using hr' c cs h
        have hstr' : str = p ++ (tok ++ (ds ++ r')) := by rw [hpr, hsplit, hsplit2]
        have hlen' : (p ++ (tok ++ (ds ++ r'))).length < npos := by rw [← hstr']; exact hstr
        have hfind := strFind_at delim p tok r1 htok' hr1'
        rw [hsplit2, ← hstr'] at hfind
        have hsub := strSubstr_token p tok (ds ++ r') hlen'
        rw [← hstr'] at hsub
        have hnext := strFindFirstNotOf_next delim p tok ds r' hlen' hds' hr''
        rw [← hstr'] at hnext
        have htoks : tokensAux delim r [] = tok :: tokensAux delim r' [] := by
          rw [hsplit, tokensAux_token delim tok [] r1 htok' (by simpa using htokne) hr1',
            hsplit2, tokensAux_delims delim ds r' hds', List.nil_append]
        have htake : List.take (len - idx) (tok :: tokensAux delim r' [])
            = tok :: List.take (len - (idx + 1)) (tokensAux delim r' []) := by
          obtain ⟨k, hk⟩ : ∃ k, len - idx = k + 1 := ⟨len - idx - 1, by omega⟩
          rw [hk, List.take_succ_cons]
          congr 2
          omega
        rw [htoks, htake] at hconv
        obtain ⟨v, vs, hv, hvs, hvals⟩ := convertAll_cons conv tok _ vals hconv
        subst hvals
        cases mid with
        | nil => simp at hmid
        | cons m ms =>
          have hset : setAt (pre ++ m :: ms ++ post) idx v = (pre ++ [v]) ++ ms ++ post := by
            rw [← hpre]
            simp only [setAt, List.append_assoc, List.cons_append, set_at_length,
              List.nil_append]
          have hih := ih (idx + 1) (pre ++ [v]) ms post (p ++ tok ++ ds) r' vs
            (by rw [hstr']; simp) hr'' (by omega) (by simp [hpre]) hvs (by simpa using hmid)
          simp only [getArrayLoop, hrne, if_false, hplen, hidx, ne_eq, not_false_eq_true,
            and_self, if_true, hfind, hsub, htokne, hv, hnext, hset, hih]
          simp only [List.append_assoc, List.cons_append, List.nil_append, List.length_cons,
            Option.some.injEq, Prod.mk.injEq, true_and]
          omega
      · have h0 : len - idx = 0 := by omega
        rw [h0, List.take_zero] at hconv
        simp only [convertAll] at hconv
        cases hconv
        have hm : mid = [] := List.length_eq_zero.mp hmid
        have hcond : ¬ (p.length ≠ npos ∧ idx < len) := fun h => hidx h.2
        simp only [getArrayLoop, hrne, if_false, hcond, hm, List.append_nil, List.length_nil,
          Nat.add_zero]

theorem strFindFirstNotOf_zero (delim : Char) (ds r : List Char)
    (hlen : (ds ++ r).length < npos) (hds : ∀ c ∈ ds, c = delim)
    (hr : ∀ c cs, r = c :: cs → c ≠ delim) :
    strFindFirstNotOf (ds ++ r) delim 0 = if r = [] then npos else ds.length := by
  by_cases h : ds ++ r = []
  · have hr' : r = [] := (List.append_eq_nil.mp h).2
    rw [h, if_pos hr']
    rfl
  · have hnext := strFindFirstNotOf_next delim [] [] ds r (by simpa using hlen) hds hr
    simpa [h] using hnext

/-- What `getArrayFromString` returns for an array of six entries, in terms of the
tokens of the string and the values `conv` gives for the first six of them. -/
theorem getArrayFromString_eq (conv : List Char → Option Int) (str : List Char)
    (data vals : List Int) (hstr : str.length < npos) (hdata : data.length = 6)
    (hconv : convertAll conv ((specTokens ';' str).take 6) = some vals) :
    getArrayFromString conv str ';' data 6
      = some (decide (6 ≤ (specTokens ';' str).length), vals ++ data.drop vals.length)
    ∧ vals.length = min 6 (specTokens ';' str).length := by
  obtain ⟨ds, r, hsplit, hds, hr⟩ := split_run (fun c => c == ';') str
  have hds' : ∀ c ∈ ds, c = ';' := fun c hc => by simpa using hds c hc
  have hr' : ∀ c cs, r = c :: cs → c ≠ ';' := fun c cs h => by simpa using hr c cs h
  have hstart : strFindFirstNotOf str ';' 0 = if r = [] then npos else ds.length := by
    rw [hsplit]
    exact strFindFirstNotOf_zero ';' ds r (by rw [← hsplit]; exact hstr) hds' hr'
  have htoks : specTokens ';' str = tokensAux ';' r [] := by
    rw [specTokens, hsplit, tokensAux_delims ';' ds r hds']
  have hvlen : vals.length = min 6 (specTokens ';' str).length := by
    rw [convertAll_length conv _ vals hconv, List.length_take]
  have hsplitd : data = [] ++ data.take vals.length ++ data.drop vals.length := by
    simp only [List.nil_append, List.take_append_drop]
  have hloop := getArrayLoop_tokens conv str ';' 6 hstr 6 0 [] (data.take vals.length)
    (data.drop vals.length) ds r vals hsplit hr' (by omega) rfl
    (by rw [← htoks]; exact hconv) (by rw [List.length_take, hdata]; omega)
  rw [← hsplitd] at hloop
  refine ⟨?_, hvlen⟩
  simp only [getArrayFromString, hstart, hloop, List.nil_append, Nat.zero_add]
  congr 2
  rw [hvlen]
  by_cases h6 : 6 ≤ (specTokens ';' str).length
  · simp [h6]
  · have : ¬ (min 6 (specTokens ';' str).length = 6) := by omega
    simp [h6, this]

/-- C12 (amended): on a string shorter than `npos` and an array of six entries, when the
conversion gives a value for each of the first six tokens of the string (for each
token when there are fewer), `getArrayFromString(str, ';', data, 6)` returns, its loop
needing no more than six iterations; it returns true exactly when the string holds at
least six tokens; the entries `0 .. k-1`, with `k` the smaller of 6 and the number of
tokens, then hold the values of the first `k` tokens in order and the other entries
are unchanged; and a string without a token, empty or made of semicolons only, gives
false and leaves the array as it was. -/
theorem getArrayFromString_six (conv : List Char → Option Int) (str : List Char)
    (data vals : List Int) (hstr : str.length < npos) (hdata : data.length = 6)
    (hconv : convertAll conv ((specTokens ';' str).take 6) = some vals) :
    getArrayFromString conv str ';' data 6
      = some (decide (6 ≤ (specTokens ';' str).length), vals ++ data.drop vals.length)
    ∧ vals.length = min 6 (specTokens ';' str).length
    ∧ (specTokens ';' str = [] → getArrayFromString conv str ';' data 6 = some (false, data)) := by
  obtain ⟨h, hlen⟩ := getArrayFromString_eq conv str data vals hstr hdata hconv
  refine ⟨h, hlen, ?_⟩
  intro hnil
  rw [hnil] at hlen
  have hv : vals = [] := List.length_eq_zero.mp (by simpa using hlen)
  rw [h, hnil, hv]
  simp

/-- Counterexample to C12 as stated: a list of seven tokens is accepted, and a list of
three tokens is rejected after its three values have replaced the first three entries
of the array. -/
theorem getArrayFromString_accepts_seven_and_overwrites_on_three :
    (specTokens ';' "1;2;3;4;5;6;7".toList).length = 7
    ∧ getArrayFromString atofToInt "1;2;3;4;5;6;7".toList ';' [11, 12, 13, 14, 15, 16] 6
        = some (true, [1, 2, 3, 4, 5, 6])
    ∧ (specTokens ';' "1;2;3".toList).length = 3
    ∧ getArrayFromString atofToInt "1;2;3".toList ';' [11, 12, 13, 14, 15, 16] 6
        = some (false, [1, 2, 3, 14, 15, 16]) := by
  decide

/-- Witness of C12 (amended), with the conversion of the source on plain decimal
tokens: the list `1;2;3;4;5;6` has six tokens with the values 1 to 6, is accepted, and
its values replace the six entries. -/
theorem getArrayFromString_six_witness :
    "1;2;3;4;5;6".toList.length < npos
    ∧ [11, 12, 13, 14, 15, 16].length = 6
    ∧ convertAll atofToInt ((specTokens ';' "1;2;3;4;5;6".toList).take 6)
        = some [1, 2, 3, 4, 5, 6]
    ∧ getArrayFromString atofToInt "1;2;3;4;5;6".toList ';' [11, 12, 13, 14, 15, 16] 6
        = some (decide (6 ≤ (specTokens ';' "1;2;3;4;5;6".toList).length),
            [1, 2, 3, 4, 5, 6] ++ [11, 12, 13, 14, 15, 16].drop [1, 2, 3, 4, 5, 6].length) :=
  ⟨by decide, rfl, by decide,
    (getArrayFromString_six atofToInt "1;2;3;4;5;6".toList [11, 12, 13, 14, 15, 16]
      [1, 2, 3, 4, 5, 6] (by decide) rfl (by decide)).1⟩

end ati
